import Mathlib

set_option maxHeartbeats 1000000

namespace Tedee

/-! Shallow embedding of `TedeeApiClient`. HTTP I/O, the clock and timers are
abstracted as environments: streams of responses indexed by the number of requests
issued so far. General recursion (the retry recursion and the operation-status
polling loop) is embedded with an explicit fuel argument; `RunRes.diverge` marks
fuel exhaustion, so a run that yields `diverge` for every fuel corresponds to a
non-terminating run of the source. -/

/-- Opaque identifier for a thrown error value (the `e` of a catch block). -/
abbrev Err := Nat

/-- Token endpoint payload: `{access_token, expires_in}` (seconds). -/
structure TokenResp where
  access_token : String
  expires_in : Int
deriving Repr, DecidableEq

/-- Response envelope `{success, errorMessages, statusCode, result}` — the shape of
`DeviceActivityResponse` in src and, per the spec, of every other response model. -/
structure ApiResponse (α : Type) where
  success : Bool
  errorMessages : List String
  statusCode : Int
  result : α
deriving Repr, DecidableEq

/-- Modelled from the spec: the `Lock` model file is not under src; a lock has
"identifier, name, and status fields ... opaque to the client beyond `id` and `name`". -/
structure Lock where
  id : Int
  name : String
deriving Repr, DecidableEq

/-- Modelled from the spec: the `LockSync` model file is not under src; a sync record
is a "point-in-time state snapshot keyed by lock/device id". -/
structure LockSync where
  id : Int
deriving Repr, DecidableEq

/-- Device activity record, from `device-activity-response.ts`. -/
structure DeviceActivity where
  id : Int
  deviceId : Int
  userId : Int
  username : String
  event : Int
  source : Int
  date : String
deriving Repr, DecidableEq

/-- Modelled from the spec: the `OperationStatus` enum file is not under src;
"status (enum: pending/other intermediate values vs. `Completed`)". -/
inductive OperationStatus where
  | Pending
  | Other
  | Completed
deriving Repr, DecidableEq

/-- Modelled from the spec: the `OperationResponse` result is "an asynchronous
command record with `operationId` and `status`". -/
structure OperationResult where
  operationId : Int
  status : OperationStatus
deriving Repr, DecidableEq

/-- The configuration fields consumed by the retry logic (the retry intervals only
pace timers and are behaviourally inert in this embedding). -/
structure Configuration where
  maximumTokenRetry : Int
  maximumApiRetry : Int
deriving Repr, DecidableEq

/-- The two mutable fields of `TedeeApiClient`; times are epoch milliseconds. -/
structure ClientState where
  expirationDateTime : Option Int
  accessToken : Option String
deriving Repr, DecidableEq

/-- Outcome of a fueled run: a value, a thrown error, or fuel exhaustion. -/
inductive RunRes (α : Type) where
  | ok (a : α)
  | err (e : Err)
  | diverge
deriving Repr, DecidableEq

/-- `if (!retryCount) { retryCount = dflt }`: both `undefined` (`none`) and `0` are
falsy and are replaced by the configured default. -/
def effectiveRetry (dflt : Int) : Option Int → Int
  | none => dflt
  | some v => if v = 0 then dflt else v

/-- The check opening `getAccessTokenAsync`:
`if (expirationDateTime && expirationDateTime.getTime() < new Date().getTime() - 120*1000)`
nulls both cached fields. -/
def invalidateIfExpired (nowMs : Int) (s : ClientState) : ClientState :=
  match s.expirationDateTime with
  | some exp => if exp < nowMs - 120 * 1000 then ⟨none, none⟩ else s
  | none => s

/-- Environment of a token acquisition: the clock and the token endpoint, indexed by
the number of token requests issued so far. -/
structure TokenEnv where
  now : Nat → Int
  resp : Nat → Except Err TokenResp

/-- `getAccessTokenAsync(retryCount?)`. `k` counts token requests already issued (it
indexes the environment streams). Returns the outcome, the final state of the two
cached fields, and the number of token requests this call issued. The cache test
`if (this.accessToken)` is JavaScript truthiness: null and the empty string both
fail it, which `Option.getD "" = ""` captures. -/
def getAccessTokenAsync (cfg : Configuration) (env : TokenEnv) (s : ClientState)
    (retryCount : Option Int) (k : Nat) (fuel : Nat) :
    RunRes String × ClientState × Nat :=
  let s1 := invalidateIfExpired (env.now k) s
  if (s1.accessToken.getD "") = "" then
    let r := effectiveRetry cfg.maximumTokenRetry retryCount
    match env.resp k with
    | .ok tr =>
        (.ok tr.access_token,
         ⟨some (env.now k + tr.expires_in * 1000), some tr.access_token⟩, 1)
    | .error e =>
        if r - 1 > 0 then
          match fuel with
          | 0 => (.diverge, s1, 1)
          | fuel' + 1 =>
              let p := getAccessTokenAsync cfg env s1 (some (r - 1)) (k + 1) fuel'
              (p.1, p.2.1, p.2.2 + 1)
        else (.err e, s1, 1)
  else
    (.ok (s1.accessToken.getD ""), s1, 0)

/-- Environment of a plain GET resource call (`/my/lock`, `/my/lock/sync`,
`/my/lock/{id}/sync`): the clock, the token endpoint, and the resource endpoint
indexed by the number of attempts made. -/
structure ResourceEnv (α : Type) where
  now : Nat → Int
  token : Nat → Except Err TokenResp
  api : Nat → Except Err (ApiResponse α)

/-- Common body of `getLocksAsync`, `syncLocksAsync` and `syncLockAsync`, which are
identical in the source up to endpoint URL and log strings (both abstracted by the
environment): default the retry count, acquire a token (outside the try block, so a
token failure propagates without consuming the API retry budget), issue the GET,
return `response.data.result`, and on an exception decrement the count and recurse
while it stays positive. `tk` and `j` index the token and API request streams; the
result carries the outcome, the final state, and the number of API attempts made. -/
def getResourceAsync {α : Type} (cfg : Configuration) (env : ResourceEnv α)
    (s : ClientState) (retryCount : Option Int) (tk j : Nat) (fuel : Nat) :
    RunRes α × ClientState × Nat :=
  let r := effectiveRetry cfg.maximumApiRetry retryCount
  match getAccessTokenAsync cfg ⟨env.now, env.token⟩ s none tk fuel with
  | (.diverge, s1, _) => (.diverge, s1, 0)
  | (.err e, s1, _) => (.err e, s1, 0)
  | (.ok _, s1, nt) =>
    match env.api j with
    | .ok resp => (.ok resp.result, s1, 1)
    | .error e =>
        if r - 1 > 0 then
          match fuel with
          | 0 => (.diverge, s1, 1)
          | fuel' + 1 =>
              let p := getResourceAsync cfg env s1 (some (r - 1)) (tk + nt) (j + 1) fuel'
              (p.1, p.2.1, p.2.2 + 1)
        else (.err e, s1, 1)

/-- `getLocksAsync(retryCount?)`: GET `/my/lock`. -/
def getLocksAsync (cfg : Configuration) (env : ResourceEnv (List Lock)) (s : ClientState)
    (retryCount : Option Int) (tk j : Nat) (fuel : Nat) :
    RunRes (List Lock) × ClientState × Nat :=
  getResourceAsync cfg env s retryCount tk j fuel

/-- `syncLocksAsync(retryCount?)`: GET `/my/lock/sync`. -/
def syncLocksAsync (cfg : Configuration) (env : ResourceEnv (List LockSync)) (s : ClientState)
    (retryCount : Option Int) (tk j : Nat) (fuel : Nat) :
    RunRes (List LockSync) × ClientState × Nat :=
  getResourceAsync cfg env s retryCount tk j fuel

/-- `syncLockAsync(id, retryCount?)`: GET `/my/lock/{id}/sync`; the id only selects
the endpoint, which the environment abstracts. -/
def syncLockAsync (cfg : Configuration) (env : ResourceEnv LockSync) (s : ClientState)
    (id : Int) (retryCount : Option Int) (tk j : Nat) (fuel : Nat) :
    RunRes LockSync × ClientState × Nat :=
  getResourceAsync cfg env s retryCount tk j fuel

/-- `getLockByNameAsync(name, retryCount?)`:
`(await this.getLocksAsync(retryCount)).find(l => l.name === name)`. -/
def getLockByNameAsync (cfg : Configuration) (env : ResourceEnv (List Lock)) (s : ClientState)
    (name : String) (retryCount : Option Int) (tk j : Nat) (fuel : Nat) :
    RunRes (Option Lock) × ClientState × Nat :=
  match getLocksAsync cfg env s retryCount tk j fuel with
  | (.ok locks, s1, n) => (.ok (locks.find? fun l => l.name == name), s1, n)
  | (.err e, s1, n) => (.err e, s1, n)
  | (.diverge, s1, n) => (.diverge, s1, n)

/-- Environment of a device-activity call: the activity endpoint takes the attempt
index, the requested `deviceId` and the requested `elements` count. -/
structure ActivityEnv where
  now : Nat → Int
  token : Nat → Except Err TokenResp
  api : Nat → Int → Int → Except Err (ApiResponse (List DeviceActivity))

/-- `getDeviceActivityAsync(lock, count, retryCount?)`: GET
`/my/deviceactivity?deviceId=...&elements=count` with the usual retry wrapper.
Faithful to the source, the recursive call is
`this.getDeviceActivityAsync(lock, retryCount)`: the decremented retry count is
passed in the `count` position and the `retryCount` parameter is omitted (so it is
re-defaulted on every recursion). The third result component is the trace of
`elements` values of the issued requests (its length is the number of attempts). -/
def getDeviceActivityAsync (cfg : Configuration) (env : ActivityEnv) (s : ClientState)
    (lock : Lock) (count : Int) (retryCount : Option Int) (tk j : Nat) (fuel : Nat) :
    RunRes (List DeviceActivity) × ClientState × List Int :=
  let r := effectiveRetry cfg.maximumApiRetry retryCount
  match getAccessTokenAsync cfg ⟨env.now, env.token⟩ s none tk fuel with
  | (.diverge, s1, _) => (.diverge, s1, [])
  | (.err e, s1, _) => (.err e, s1, [])
  | (.ok _, s1, nt) =>
    match env.api j lock.id count with
    | .ok resp => (.ok resp.result, s1, [count])
    | .error e =>
        if r - 1 > 0 then
          match fuel with
          | 0 => (.diverge, s1, [count])
          | fuel' + 1 =>
              let p := getDeviceActivityAsync cfg env s1 lock (r - 1) none (tk + nt) (j + 1) fuel'
              (p.1, p.2.1, count :: p.2.2)
        else (.err e, s1, [count])

/-- `getLatestDeviceActivityAsync(lock, retryCount?)`:
`const activities = await this.getDeviceActivityAsync(lock, 1, retryCount)` followed
by `return activities[0] || null` (activity objects are always truthy, so this is
head-or-null). -/
def getLatestDeviceActivityAsync (cfg : Configuration) (env : ActivityEnv) (s : ClientState)
    (lock : Lock) (retryCount : Option Int) (tk j : Nat) (fuel : Nat) :
    RunRes (Option DeviceActivity) × ClientState × List Int :=
  match getDeviceActivityAsync cfg env s lock 1 retryCount tk j fuel with
  | (.ok activities, s1, tr) =>
      (.ok (match activities with | [] => none | a :: _ => some a), s1, tr)
  | (.err e, s1, tr) => (.err e, s1, tr)
  | (.diverge, s1, tr) => (.diverge, s1, tr)

/-- Environment of a command operation (`close`, `open`, `pull-spring`): the POST
endpoint indexed by attempt and deviceId, and the operation-status GET endpoint
indexed by attempt, poll number and the polled `operationId`. -/
structure OpEnv where
  now : Nat → Int
  token : Nat → Except Err TokenResp
  post : Nat → Int → Except Err (ApiResponse OperationResult)
  poll : Nat → Nat → Int → Except Err (ApiResponse OperationResult)

/-- The `while (response.data.result.status !== OperationStatus.Completed)` loop:
sleep, GET `/my/device/operation/{operationId}` of the current response, repeat.
`pf` is the poll fuel, `i` the number of status GETs issued so far; the result pairs
the outcome with the number of status GETs issued. -/
def pollLoop (env : OpEnv) (j : Nat) (pf : Nat) (cur : OperationResult) (i : Nat) :
    RunRes Unit × Nat :=
  if cur.status = OperationStatus.Completed then (.ok (), i)
  else
    match pf with
    | 0 => (.diverge, i)
    | pf' + 1 =>
        match env.poll j i cur.operationId with
        | .error e => (.err e, i + 1)
        | .ok resp2 => pollLoop env j pf' resp2.result (i + 1)

/-- One try-block body of a command operation: POST the command, then poll the
returned operation to completion. -/
def opAttempt (env : OpEnv) (j : Nat) (deviceId : Int) (pf : Nat) : RunRes Unit × Nat :=
  match env.post j deviceId with
  | .error e => (.err e, 0)
  | .ok resp => pollLoop env j pf resp.result 0

/-- Common body of `closeAsync`, `openAsync` and `pullSpringAsync`, identical in the
source up to endpoint URL and log strings (abstracted by the environment): default
the retry count, acquire a token, POST the command, poll its operation status until
`Completed`, and on any exception in the try block decrement the count and recurse
while it stays positive. The result carries the outcome, the final state, the
number of command attempts, and the total number of status GETs issued. -/
def operationAsync (cfg : Configuration) (env : OpEnv) (s : ClientState) (lock : Lock)
    (retryCount : Option Int) (tk j : Nat) (pf : Nat) (fuel : Nat) :
    RunRes Unit × ClientState × Nat × Nat :=
  let r := effectiveRetry cfg.maximumApiRetry retryCount
  match getAccessTokenAsync cfg ⟨env.now, env.token⟩ s none tk fuel with
  | (.diverge, s1, _) => (.diverge, s1, 0, 0)
  | (.err e, s1, _) => (.err e, s1, 0, 0)
  | (.ok _, s1, nt) =>
    match opAttempt env j lock.id pf with
    | (.ok _, polls) => (.ok (), s1, 1, polls)
    | (.diverge, polls) => (.diverge, s1, 1, polls)
    | (.err e, polls) =>
        if r - 1 > 0 then
          match fuel with
          | 0 => (.diverge, s1, 1, polls)
          | fuel' + 1 =>
              let p := operationAsync cfg env s1 lock (some (r - 1)) (tk + nt) (j + 1) pf fuel'
              (p.1, p.2.1, p.2.2.1 + 1, polls + p.2.2.2)
        else (.err e, s1, 1, polls)

/-- `closeAsync(lock, retryCount?)`: POST `/my/lock/close` and poll. -/
def closeAsync (cfg : Configuration) (env : OpEnv) (s : ClientState) (lock : Lock)
    (retryCount : Option Int) (tk j : Nat) (pf : Nat) (fuel : Nat) :
    RunRes Unit × ClientState × Nat × Nat :=
  operationAsync cfg env s lock retryCount tk j pf fuel

/-- `openAsync(lock, retryCount?)`: POST `/my/lock/open` and poll. -/
def openAsync (cfg : Configuration) (env : OpEnv) (s : ClientState) (lock : Lock)
    (retryCount : Option Int) (tk j : Nat) (pf : Nat) (fuel : Nat) :
    RunRes Unit × ClientState × Nat × Nat :=
  operationAsync cfg env s lock retryCount tk j pf fuel

/-- `pullSpringAsync(lock, retryCount?)`: POST `/my/lock/pull-spring` and poll. -/
def pullSpringAsync (cfg : Configuration) (env : OpEnv) (s : ClientState) (lock : Lock)
    (retryCount : Option Int) (tk j : Nat) (pf : Nat) (fuel : Nat) :
    RunRes Unit × ClientState × Nat × Nat :=
  operationAsync cfg env s lock retryCount tk j pf fuel

/-- Spec-side definition, following the spec words for `getLockByName`: "returns the
first lock in that list whose name field equals the given name, and returns
undefined when no lock in the list has that name". Used as the refinement target of
the code-side filter. -/
def firstLockNamed (name : String) : List Lock → Option Lock
  | [] => none
  | l :: ls => if l.name = name then some l else firstLockNamed name ls

/-- The client-state invariant of claim C9: `accessToken` is null exactly when
`expirationDateTime` is null. -/
def Inv (s : ClientState) : Prop :=
  s.accessToken = none ↔ s.expirationDateTime = none

/-- States reachable from `s` by mutating the cached fields only through
`getAccessTokenAsync` (the frame of claim C8): every state change of the client is
a composition of token-acquisition transitions. -/
inductive TokenReach (cfg : Configuration) (te : TokenEnv) (s : ClientState) : ClientState → Prop
  | refl : TokenReach cfg te s s
  | step (s1 : ClientState) (rc : Option Int) (k fuel : Nat) :
      TokenReach cfg te s s1 →
      TokenReach cfg te s (getAccessTokenAsync cfg te s1 rc k fuel).2.1

/-! Shared lemmas about `getAccessTokenAsync`. -/

/-- A valid (not yet invalidated) non-empty cached token is returned as-is, with no
token request and no state change. -/
theorem getAccessTokenAsync_cacheHit (cfg : Configuration) (env : TokenEnv) (s : ClientState)
    (rc : Option Int) (k fuel : Nat) (tok : String) (exp : Int)
    (hacc : s.accessToken = some tok) (htok : tok ≠ "")
    (hexp : s.expirationDateTime = some exp) (hnow : ¬ exp < env.now k - 120 * 1000) :
    getAccessTokenAsync cfg env s rc k fuel = (.ok tok, s, 0) := by
  have hnow' : ¬ exp < env.now k - 120000 := by omega
  rw [getAccessTokenAsync.eq_def]
  simp [invalidateIfExpired, hexp, hacc, htok, hnow']

/-- On a cache miss at least one token request is issued, whatever `retryCount` is. -/
theorem getAccessTokenAsync_cacheMiss_one_attempt (cfg : Configuration) (env : TokenEnv)
    (s : ClientState) (rc : Option Int) (k fuel : Nat)
    (h : (invalidateIfExpired (env.now k) s).accessToken.getD "" = "") :
    1 ≤ (getAccessTokenAsync cfg env s rc k fuel).2.2 := by
  rw [getAccessTokenAsync.eq_def]
  simp only [h, if_pos]
  cases env.resp k with
  | ok tr => simp
  | error e =>
    simp only []
    split
    · cases fuel <;> simp
    · simp

/-- Token acquisition from an empty cache against an endpoint that fails every
request: the effective retry count `r` is consumed exactly (one request per unit),
the error of the last request is rethrown, and the cached fields stay null. -/
theorem getAccessTokenAsync_allFail_aux (cfg : Configuration) (env : TokenEnv) (es : Nat → Err)
    (hfail : ∀ i, env.resp i = .error (es i)) :
    ∀ (fuel : Nat) (rc : Option Int) (k : Nat) (r : Int),
      effectiveRetry cfg.maximumTokenRetry rc = r → 1 ≤ r → r.toNat ≤ fuel + 1 →
      getAccessTokenAsync cfg env ⟨none, none⟩ rc k fuel =
        (.err (es (k + (r.toNat - 1))), ⟨none, none⟩, r.toNat) := by
  intro fuel
  induction fuel with
  | zero =>
    intro rc k r hr h1 hle
    have hr1 : r = 1 := by omega
    subst hr1
    rw [getAccessTokenAsync.eq_def]
    simp [invalidateIfExpired, hfail k, hr]
  | succ fuel ih =>
    intro rc k r hr h1 hle
    rw [getAccessTokenAsync.eq_def]
    by_cases h2 : r - 1 > 0
    · have hrec := ih (some (r - 1)) (k + 1) (r - 1)
        (by simp only [effectiveRetry]; rw [if_neg (by omega)]) (by omega) (by omega)
      simp [invalidateIfExpired, hfail k, hr, h2, hrec]
      constructor
      · congr 1
        omega
      · omega
    · have hr1 : r = 1 := by omega
      subst hr1
      simp [invalidateIfExpired, hfail k, hr]

/-- C1: for every call to `getAccessTokenAsync`, a cached token with the current
time strictly before `expiry - 120s` is returned without a token request — but,
contrary to the claim's second half, a cached token is STILL returned without any
refresh when the current time is within 120 seconds of the stored expiry, at the
expiry itself, and up to 120 seconds past it: the source's check
`expirationDateTime < now - 120*1000` only invalidates more than 120 seconds AFTER
expiry. Evaluations below: expiry 1000000ms; at now = 1000000 (at expiry: the claim
demands a refresh) and at now = 1120000 (120s past expiry) the cached token is
returned with zero token requests; only at now = 1120001 does the call invalidate
and hit the failing token endpoint (3 requests, error rethrown, fields nulled). -/
theorem c1_expiry_check_keeps_expired_token :
    (getAccessTokenAsync ⟨3, 3⟩ ⟨fun _ => 1000000, fun _ => .error 5⟩
        ⟨some 1000000, some "tok"⟩ none 0 9 = (.ok "tok", ⟨some 1000000, some "tok"⟩, 0))
    ∧ (getAccessTokenAsync ⟨3, 3⟩ ⟨fun _ => 1120000, fun _ => .error 5⟩
        ⟨some 1000000, some "tok"⟩ none 0 9 = (.ok "tok", ⟨some 1000000, some "tok"⟩, 0))
    ∧ (getAccessTokenAsync ⟨3, 3⟩ ⟨fun _ => 1120001, fun _ => .error 5⟩
        ⟨some 1000000, some "tok"⟩ none 0 9 = (.err 5, ⟨none, none⟩, 3)) :=
  ⟨by decide, by decide, by decide⟩

/-! Shared lemmas about `getResourceAsync`. -/

/-- A resource call holding a permanently valid cached token, against an endpoint
that fails every attempt: the effective retry count `r` is consumed exactly, the
error of the last attempt is rethrown, and the state is unchanged. -/
theorem getResourceAsync_allFail_aux {α : Type} (cfg : Configuration) (env : ResourceEnv α)
    (s : ClientState) (tok : String) (exp : Int) (es : Nat → Err)
    (hacc : s.accessToken = some tok) (htok : tok ≠ "")
    (hexp : s.expirationDateTime = some exp)
    (hnow : ∀ t, ¬ exp < env.now t - 120 * 1000)
    (hfail : ∀ i, env.api i = .error (es i)) :
    ∀ (fuel : Nat) (rc : Option Int) (tk j : Nat) (r : Int),
      effectiveRetry cfg.maximumApiRetry rc = r → 1 ≤ r → r.toNat ≤ fuel + 1 →
      getResourceAsync cfg env s rc tk j fuel =
        (.err (es (j + (r.toNat - 1))), s, r.toNat) := by
  intro fuel
  induction fuel with
  | zero =>
    intro rc tk j r hr h1 hle
    have hr1 : r = 1 := by omega
    subst hr1
    rw [getResourceAsync.eq_def,
      getAccessTokenAsync_cacheHit cfg ⟨env.now, env.token⟩ s none tk 0 tok exp hacc htok hexp (hnow tk)]
    simp [hfail j, hr]
  | succ fuel ih =>
    intro rc tk j r hr h1 hle
    rw [getResourceAsync.eq_def,
      getAccessTokenAsync_cacheHit cfg ⟨env.now, env.token⟩ s none tk (fuel + 1) tok exp hacc htok hexp (hnow tk)]
    by_cases h2 : r - 1 > 0
    · have hrec := ih (some (r - 1)) tk (j + 1) (r - 1)
        (by simp only [effectiveRetry]; rw [if_neg (by omega)]) (by omega) (by omega)
      simp [hfail j, hr, h2, hrec]
      constructor
      · congr 1
        omega
      · omega
    · have hr1 : r = 1 := by omega
      subst hr1
      simp [hfail j, hr]

/-- A resource call holding a permanently valid cached token whose first `k`
attempts fail and whose attempt `k+1` succeeds returns that success, with exactly
`k+1` attempts and no state change. -/
theorem getResourceAsync_succeedsAfterK {α : Type} (cfg : Configuration) (env : ResourceEnv α)
    (s : ClientState) (tok : String) (exp : Int)
    (hacc : s.accessToken = some tok) (htok : tok ≠ "")
    (hexp : s.expirationDateTime = some exp)
    (hnow : ∀ t, ¬ exp < env.now t - 120 * 1000) :
    ∀ (k : Nat) (fuel tk j : Nat) (rc : Option Int) (r : Int) (es : Nat → Err)
      (resp : ApiResponse α),
      effectiveRetry cfg.maximumApiRetry rc = r → (k : Int) < r →
      (∀ i, i < k → env.api (j + i) = .error (es i)) →
      env.api (j + k) = .ok resp → k ≤ fuel →
      getResourceAsync cfg env s rc tk j fuel = (.ok resp.result, s, k + 1) := by
  intro k
  induction k with
  | zero =>
    intro fuel tk j rc r es resp hr hkr hfaillt hok hfuel
    rw [getResourceAsync.eq_def,
      getAccessTokenAsync_cacheHit cfg ⟨env.now, env.token⟩ s none tk fuel tok exp hacc htok hexp (hnow tk)]
    simp only [Nat.add_zero] at hok
    simp [hok]
  | succ k ih =>
    intro fuel tk j rc r es resp hr hkr hfaillt hok hfuel
    obtain ⟨fuel', rfl⟩ : ∃ f, fuel = f + 1 := ⟨fuel - 1, by omega⟩
    rw [getResourceAsync.eq_def,
      getAccessTokenAsync_cacheHit cfg ⟨env.now, env.token⟩ s none tk (fuel' + 1) tok exp hacc htok hexp (hnow tk)]
    have h0 : env.api j = .error (es 0) := by
      have h := hfaillt 0 (by omega)
      simpa using h
    have h2 : r - 1 > 0 := by omega
    have hrec := ih fuel' tk (j + 1) (some (r - 1)) (r - 1) (fun i => es (i + 1)) resp
      (by simp only [effectiveRetry]; rw [if_neg (by omega)]) (by omega)
      (fun i hi => by
        have h := hfaillt (i + 1) (by omega)
        rw [show j + 1 + i = j + (i + 1) by omega]
        exact h)
      (by rw [show j + 1 + k = j + (k + 1) by omega]; exact hok) (by omega)
    simp [h0, hr, h2, hrec]

/-- When token acquisition succeeds, a resource call issues at least one API
attempt, whatever the `retryCount` argument. -/
theorem getResourceAsync_one_attempt {α : Type} (cfg : Configuration) (env : ResourceEnv α)
    (s : ClientState) (rc : Option Int) (tk j fuel : Nat) (tok : String)
    (h : (getAccessTokenAsync cfg ⟨env.now, env.token⟩ s none tk fuel).1 = .ok tok) :
    1 ≤ (getResourceAsync cfg env s rc tk j fuel).2.2 := by
  rcases htk : getAccessTokenAsync cfg ⟨env.now, env.token⟩ s none tk fuel with ⟨res, s1, nt⟩
  rw [htk] at h
  simp only at h
  subst h
  rw [getResourceAsync.eq_def, htk]
  cases hapi : env.api j with
  | ok resp => simp
  | error e =>
    simp only [hapi]
    split
    · cases fuel <;> simp
    · simp

/-! Shared lemmas about `getDeviceActivityAsync`. -/

/-- A device-activity call (default retry count) holding a permanently valid cached
token whose first `k` attempts fail and whose attempt `k+1` succeeds returns that
success with exactly `k+1` attempts; the issued `elements` values are the original
`count` followed by `maximumApiRetry - 1` on every retry (the source passes the
decremented retry count in the `count` position on recursion). -/
theorem getDeviceActivityAsync_succeedsAfterK (cfg : Configuration) (env : ActivityEnv)
    (s : ClientState) (lock : Lock) (tok : String) (exp : Int)
    (hacc : s.accessToken = some tok) (htok : tok ≠ "")
    (hexp : s.expirationDateTime = some exp)
    (hnow : ∀ t, ¬ exp < env.now t - 120 * 1000) :
    ∀ (k : Nat) (fuel tk j : Nat) (count : Int) (es : Nat → Err)
      (resp : ApiResponse (List DeviceActivity)),
      (k : Int) < cfg.maximumApiRetry →
      (∀ i c, i < k → env.api (j + i) lock.id c = .error (es i)) →
      (∀ c, env.api (j + k) lock.id c = .ok resp) → k ≤ fuel →
      getDeviceActivityAsync cfg env s lock count none tk j fuel =
        (.ok resp.result, s, count :: List.replicate k (cfg.maximumApiRetry - 1)) := by
  intro k
  induction k with
  | zero =>
    intro fuel tk j count es resp hkr hfaillt hok hfuel
    rw [getDeviceActivityAsync.eq_def,
      getAccessTokenAsync_cacheHit cfg ⟨env.now, env.token⟩ s none tk fuel tok exp hacc htok hexp (hnow tk)]
    simp only [Nat.add_zero] at hok
    simp [hok count]
  | succ k ih =>
    intro fuel tk j count es resp hkr hfaillt hok hfuel
    obtain ⟨fuel', rfl⟩ : ∃ f, fuel = f + 1 := ⟨fuel - 1, by omega⟩
    rw [getDeviceActivityAsync.eq_def,
      getAccessTokenAsync_cacheHit cfg ⟨env.now, env.token⟩ s none tk (fuel' + 1) tok exp hacc htok hexp (hnow tk)]
    have h0 : env.api j lock.id count = .error (es 0) := by
      have h := hfaillt 0 count (by omega)
      simpa using h
    have h2 : 1 < cfg.maximumApiRetry := by omega
    have hrec := ih fuel' tk (j + 1) (cfg.maximumApiRetry - 1)
      (fun i => es (i + 1)) resp (by omega)
      (fun i c hi => by
        have h := hfaillt (i + 1) c (by omega)
        rw [show j + 1 + i = j + (i + 1) by omega]
        exact h)
      (fun c => by rw [show j + 1 + k = j + (k + 1) by omega]; exact hok c) (by omega)
    simp [h0, h2, hrec, effectiveRetry, List.replicate_succ]

/-- A device-activity call (default retry count at the top, as every public call
site uses) holding a permanently valid cached token against an endpoint that fails
every attempt never terminates when `maximumApiRetry ≥ 2`: the recursive call
re-defaults the omitted `retryCount`, so the retry budget is never exhausted and no
error is ever rethrown — the run exhausts any amount of fuel. -/
theorem getDeviceActivityAsync_allFail_diverge (cfg : Configuration) (env : ActivityEnv)
    (s : ClientState) (lock : Lock) (tok : String) (exp : Int) (ef : Nat → Int → Err)
    (hacc : s.accessToken = some tok) (htok : tok ≠ "")
    (hexp : s.expirationDateTime = some exp)
    (hnow : ∀ t, ¬ exp < env.now t - 120 * 1000)
    (h2 : 2 ≤ cfg.maximumApiRetry)
    (hfail : ∀ i c, env.api i lock.id c = .error (ef i c)) :
    ∀ (fuel tk j : Nat) (count : Int),
      (getDeviceActivityAsync cfg env s lock count none tk j fuel).1 = .diverge := by
  intro fuel
  induction fuel with
  | zero =>
    intro tk j count
    rw [getDeviceActivityAsync.eq_def,
      getAccessTokenAsync_cacheHit cfg ⟨env.now, env.token⟩ s none tk 0 tok exp hacc htok hexp (hnow tk)]
    have hgt : 1 < cfg.maximumApiRetry := by omega
    simp [hfail j count, hgt, effectiveRetry]
  | succ fuel ih =>
    intro tk j count
    rw [getDeviceActivityAsync.eq_def,
      getAccessTokenAsync_cacheHit cfg ⟨env.now, env.token⟩ s none tk (fuel + 1) tok exp hacc htok hexp (hnow tk)]
    have hgt : 1 < cfg.maximumApiRetry := by omega
    simp [hfail j count, hgt, ih, effectiveRetry]

/-! Shared lemmas about `pollLoop`, `opAttempt` and `operationAsync`. -/

/-- If no successful status GET ever reports `Completed` and the current response is
not `Completed`, the polling loop never finishes normally. -/
theorem pollLoop_not_ok (env : OpEnv) (j : Nat)
    (hpoll : ∀ i oid r2, env.poll j i oid = .ok r2 → r2.result.status ≠ .Completed) :
    ∀ (pf : Nat) (cur : OperationResult) (i : Nat), cur.status ≠ .Completed →
      (pollLoop env j pf cur i).1 ≠ .ok () := by
  intro pf
  induction pf with
  | zero =>
    intro cur i hcur
    rw [pollLoop.eq_def]
    simp [hcur]
  | succ pf ih =>
    intro cur i hcur
    rw [pollLoop.eq_def]
    rw [if_neg hcur]
    cases hp : env.poll j i cur.operationId with
    | error e => simp
    | ok r2 => simpa using ih r2.result (i + 1) (hpoll i _ r2 hp)

/-- If every status GET succeeds but never reports `Completed`, and the current
response is not `Completed`, the polling loop exhausts any amount of fuel. -/
theorem pollLoop_pending_diverge (env : OpEnv) (j : Nat)
    (pr : Nat → Int → ApiResponse OperationResult)
    (hpoll : ∀ i oid, env.poll j i oid = .ok (pr i oid))
    (hpend : ∀ i oid, (pr i oid).result.status ≠ .Completed) :
    ∀ (pf : Nat) (cur : OperationResult) (i : Nat), cur.status ≠ .Completed →
      (pollLoop env j pf cur i).1 = .diverge := by
  intro pf
  induction pf with
  | zero =>
    intro cur i hcur
    rw [pollLoop.eq_def]
    simp [hcur]
  | succ pf ih =>
    intro cur i hcur
    rw [pollLoop.eq_def]
    rw [if_neg hcur]
    simp only [hpoll i cur.operationId]
    exact ih (pr i cur.operationId).result (i + 1) (hpend i cur.operationId)

/-- An attempt of a command operation cannot finish normally if neither the POST
response nor any successful status GET reports `Completed`. -/
theorem opAttempt_not_ok (env : OpEnv) (deviceId : Int) (j pf : Nat)
    (hpost : ∀ r, env.post j deviceId = .ok r → r.result.status ≠ .Completed)
    (hpoll : ∀ i oid r2, env.poll j i oid = .ok r2 → r2.result.status ≠ .Completed) :
    (opAttempt env j deviceId pf).1 ≠ .ok () := by
  unfold opAttempt
  cases hp : env.post j deviceId with
  | error e => simp
  | ok resp => simpa using pollLoop_not_ok env j hpoll pf resp.result 0 (hpost resp hp)

/-- A command operation never finishes normally while no response — POST or status
GET, on any attempt — reports `Completed`. -/
theorem operationAsync_never_ok (cfg : Configuration) (env : OpEnv) (lock : Lock)
    (hpost : ∀ j r, env.post j lock.id = .ok r → r.result.status ≠ .Completed)
    (hpoll : ∀ j i oid r2, env.poll j i oid = .ok r2 → r2.result.status ≠ .Completed) :
    ∀ (fuel : Nat) (s : ClientState) (rc : Option Int) (tk j pf : Nat),
      (operationAsync cfg env s lock rc tk j pf fuel).1 ≠ .ok () := by
  intro fuel
  induction fuel with
  | zero =>
    intro s rc tk j pf
    rw [operationAsync.eq_def]
    rcases htk : getAccessTokenAsync cfg ⟨env.now, env.token⟩ s none tk 0 with ⟨res, s1, nt⟩
    cases res with
    | diverge => simp
    | err e => simp
    | ok t =>
      rcases ha : opAttempt env j lock.id pf with ⟨ares, polls⟩
      cases ares with
      | ok u =>
        exfalso
        have h := opAttempt_not_ok env lock.id j pf (hpost j) (hpoll j)
        rw [ha] at h
        simp at h
      | err e =>
        simp only [ha]
        split
        · simp
        · simp
      | diverge => simp [ha]
  | succ fuel ih =>
    intro s rc tk j pf
    rw [operationAsync.eq_def]
    rcases htk : getAccessTokenAsync cfg ⟨env.now, env.token⟩ s none tk (fuel + 1) with ⟨res, s1, nt⟩
    cases res with
    | diverge => simp
    | err e => simp
    | ok t =>
      rcases ha : opAttempt env j lock.id pf with ⟨ares, polls⟩
      cases ares with
      | ok u =>
        exfalso
        have h := opAttempt_not_ok env lock.id j pf (hpost j) (hpoll j)
        rw [ha] at h
        simp at h
      | err e =>
        simp only [ha]
        split
        · simpa using ih s1 (some (effectiveRetry cfg.maximumApiRetry rc - 1)) (tk + nt) (j + 1) pf
        · simp
      | diverge => simp [ha]

/-- A command operation holding a valid cached token, whose POST succeeds with a
non-`Completed` status and whose status GETs all succeed without ever reporting
`Completed`, exhausts any amount of poll fuel: the polling loop never exits. -/
theorem operationAsync_pending_diverge (cfg : Configuration) (env : OpEnv) (s : ClientState)
    (lock : Lock) (rc : Option Int) (tk j pf fuel : Nat) (tok : String) (exp : Int)
    (hacc : s.accessToken = some tok) (htok : tok ≠ "")
    (hexp : s.expirationDateTime = some exp)
    (hnow : ∀ t, ¬ exp < env.now t - 120 * 1000)
    (rp : ApiResponse OperationResult)
    (hpost : env.post j lock.id = .ok rp) (hrp : rp.result.status ≠ .Completed)
    (pr : Nat → Int → ApiResponse OperationResult)
    (hpoll : ∀ i oid, env.poll j i oid = .ok (pr i oid))
    (hpend : ∀ i oid, (pr i oid).result.status ≠ .Completed) :
    (operationAsync cfg env s lock rc tk j pf fuel).1 = .diverge := by
  have ha : (opAttempt env j lock.id pf).1 = .diverge := by
    unfold opAttempt
    simp only [hpost]
    exact pollLoop_pending_diverge env j pr hpoll hpend pf rp.result 0 hrp
  rcases ha2 : opAttempt env j lock.id pf with ⟨ares, polls⟩
  rw [ha2] at ha
  simp only at ha
  subst ha
  rw [operationAsync.eq_def,
    getAccessTokenAsync_cacheHit cfg ⟨env.now, env.token⟩ s none tk fuel tok exp hacc htok hexp (hnow tk)]
  simp [ha2]

/-- A command operation holding a valid cached token, whose POST reports a pending
status and whose first two status GETs report pending then `Completed`, finishes
normally after exactly 2 status GETs, in one attempt, with no state change. -/
theorem operationAsync_two_polls (cfg : Configuration) (env : OpEnv) (s : ClientState)
    (lock : Lock) (rc : Option Int) (tk j pf fuel : Nat) (tok : String) (exp : Int)
    (hacc : s.accessToken = some tok) (htok : tok ≠ "")
    (hexp : s.expirationDateTime = some exp)
    (hnow : ∀ t, ¬ exp < env.now t - 120 * 1000)
    (r0 r1 r2 : ApiResponse OperationResult)
    (hpost : env.post j lock.id = .ok r0) (h0 : r0.result.status = .Pending)
    (hp0 : env.poll j 0 r0.result.operationId = .ok r1) (h1 : r1.result.status = .Pending)
    (hp1 : env.poll j 1 r1.result.operationId = .ok r2) (h2 : r2.result.status = .Completed)
    (hpf : 2 ≤ pf) :
    operationAsync cfg env s lock rc tk j pf fuel = (.ok (), s, 1, 2) := by
  obtain ⟨pf', rfl⟩ : ∃ q, pf = q + 2 := ⟨pf - 2, by omega⟩
  have ha : opAttempt env j lock.id (pf' + 2) = (.ok (), 2) := by
    unfold opAttempt
    simp only [hpost]
    rw [show pf' + 2 = (pf' + 1) + 1 by omega, pollLoop.eq_def]
    rw [if_neg (by simp [h0])]
    simp only [hp0]
    rw [pollLoop.eq_def]
    rw [if_neg (by simp [h1])]
    simp only [hp1]
    rw [pollLoop.eq_def]
    rw [if_pos h2]
  rw [operationAsync.eq_def,
    getAccessTokenAsync_cacheHit cfg ⟨env.now, env.token⟩ s none tk fuel tok exp hacc htok hexp (hnow tk)]
  simp [ha]

/-- A command operation holding a permanently valid cached token whose first `k`
attempts fail with an exception and whose attempt `k+1` finishes normally returns
normally with exactly `k+1` attempts and no state change. -/
theorem operationAsync_succeedsAfterK (cfg : Configuration) (env : OpEnv)
    (s : ClientState) (lock : Lock) (tok : String) (exp : Int)
    (hacc : s.accessToken = some tok) (htok : tok ≠ "")
    (hexp : s.expirationDateTime = some exp)
    (hnow : ∀ t, ¬ exp < env.now t - 120 * 1000) :
    ∀ (k : Nat) (fuel tk j pf : Nat) (rc : Option Int) (r : Int) (es : Nat → Err)
      (ps : Nat → Nat) (pk : Nat),
      effectiveRetry cfg.maximumApiRetry rc = r → (k : Int) < r →
      (∀ i, i < k → opAttempt env (j + i) lock.id pf = (.err (es i), ps i)) →
      opAttempt env (j + k) lock.id pf = (.ok (), pk) → k ≤ fuel →
      ((operationAsync cfg env s lock rc tk j pf fuel).1 = .ok ()
        ∧ (operationAsync cfg env s lock rc tk j pf fuel).2.1 = s
        ∧ (operationAsync cfg env s lock rc tk j pf fuel).2.2.1 = k + 1) := by
  intro k
  induction k with
  | zero =>
    intro fuel tk j pf rc r es ps pk hr hkr hfaillt hok hfuel
    rw [operationAsync.eq_def,
      getAccessTokenAsync_cacheHit cfg ⟨env.now, env.token⟩ s none tk fuel tok exp hacc htok hexp (hnow tk)]
    simp only [Nat.add_zero] at hok
    simp [hok]
  | succ k ih =>
    intro fuel tk j pf rc r es ps pk hr hkr hfaillt hok hfuel
    obtain ⟨fuel', rfl⟩ : ∃ f, fuel = f + 1 := ⟨fuel - 1, by omega⟩
    rw [operationAsync.eq_def,
      getAccessTokenAsync_cacheHit cfg ⟨env.now, env.token⟩ s none tk (fuel' + 1) tok exp hacc htok hexp (hnow tk)]
    have h0 : opAttempt env j lock.id pf = (.err (es 0), ps 0) := by
      have h := hfaillt 0 (by omega)
      simpa using h
    have h2 : r - 1 > 0 := by omega
    have hrec := ih fuel' tk (j + 1) pf (some (r - 1)) (r - 1) (fun i => es (i + 1))
      (fun i => ps (i + 1)) pk
      (by simp only [effectiveRetry]; rw [if_neg (by omega)]) (by omega)
      (fun i hi => by
        have h := hfaillt (i + 1) (by omega)
        rw [show j + 1 + i = j + (i + 1) by omega]
        exact h)
      (by rw [show j + 1 + k = j + (k + 1) by omega]; exact hok) (by omega)
    simp [h0, hr, h2, hrec.1, hrec.2.1, hrec.2.2]

/-! Shared lemmas about `TokenReach` and the null-together invariant. -/

/-- `TokenReach` is transitive. -/
theorem TokenReach.trans {cfg : Configuration} {te : TokenEnv} {a b c : ClientState}
    (h1 : TokenReach cfg te a b) (h2 : TokenReach cfg te b c) : TokenReach cfg te a c := by
  induction h2 with
  | refl => exact h1
  | step s1 rc k fuel hr ih => exact TokenReach.step s1 rc k fuel ih

/-- The final state of a resource call is reachable from the initial state through
token-acquisition transitions alone. -/
theorem getResourceAsync_reach {α : Type} (cfg : Configuration) (env : ResourceEnv α) :
    ∀ (fuel : Nat) (s : ClientState) (rc : Option Int) (tk j : Nat),
      TokenReach cfg ⟨env.now, env.token⟩ s (getResourceAsync cfg env s rc tk j fuel).2.1 := by
  intro fuel
  induction fuel with
  | zero =>
    intro s rc tk j
    rcases htk : getAccessTokenAsync cfg ⟨env.now, env.token⟩ s none tk 0 with ⟨res, s1, nt⟩
    have hs1 : TokenReach cfg ⟨env.now, env.token⟩ s s1 := by
      have h0 : TokenReach cfg (⟨env.now, env.token⟩ : TokenEnv) s s := TokenReach.refl
      have h := TokenReach.step s none tk 0 h0
      rw [htk] at h
      exact h
    rw [getResourceAsync.eq_def, htk]
    cases res with
    | diverge => exact hs1
    | err e => exact hs1
    | ok t =>
      cases hapi : env.api j with
      | ok resp => exact hs1
      | error e =>
        simp only
        split
        · exact hs1
        · exact hs1
  | succ fuel ih =>
    intro s rc tk j
    rcases htk : getAccessTokenAsync cfg ⟨env.now, env.token⟩ s none tk (fuel + 1) with ⟨res, s1, nt⟩
    have hs1 : TokenReach cfg ⟨env.now, env.token⟩ s s1 := by
      have h0 : TokenReach cfg (⟨env.now, env.token⟩ : TokenEnv) s s := TokenReach.refl
      have h := TokenReach.step s none tk (fuel + 1) h0
      rw [htk] at h
      exact h
    rw [getResourceAsync.eq_def, htk]
    cases res with
    | diverge => exact hs1
    | err e => exact hs1
    | ok t =>
      cases hapi : env.api j with
      | ok resp => exact hs1
      | error e =>
        simp only
        split
        · exact TokenReach.trans hs1 (ih s1 (some (effectiveRetry cfg.maximumApiRetry rc - 1)) (tk + nt) (j + 1))
        · exact hs1

/-- The final state of a device-activity call is reachable from the initial state
through token-acquisition transitions alone. -/
theorem getDeviceActivityAsync_reach (cfg : Configuration) (env : ActivityEnv) (lock : Lock) :
    ∀ (fuel : Nat) (s : ClientState) (count : Int) (rc : Option Int) (tk j : Nat),
      TokenReach cfg ⟨env.now, env.token⟩ s
        (getDeviceActivityAsync cfg env s lock count rc tk j fuel).2.1 := by
  intro fuel
  induction fuel with
  | zero =>
    intro s count rc tk j
    rcases htk : getAccessTokenAsync cfg ⟨env.now, env.token⟩ s none tk 0 with ⟨res, s1, nt⟩
    have hs1 : TokenReach cfg ⟨env.now, env.token⟩ s s1 := by
      have h0 : TokenReach cfg (⟨env.now, env.token⟩ : TokenEnv) s s := TokenReach.refl
      have h := TokenReach.step s none tk 0 h0
      rw [htk] at h
      exact h
    rw [getDeviceActivityAsync.eq_def, htk]
    cases res with
    | diverge => exact hs1
    | err e => exact hs1
    | ok t =>
      cases hapi : env.api j lock.id count with
      | ok resp => exact hs1
      | error e =>
        simp only
        split
        · exact hs1
        · exact hs1
  | succ fuel ih =>
    intro s count rc tk j
    rcases htk : getAccessTokenAsync cfg ⟨env.now, env.token⟩ s none tk (fuel + 1) with ⟨res, s1, nt⟩
    have hs1 : TokenReach cfg ⟨env.now, env.token⟩ s s1 := by
      have h0 : TokenReach cfg (⟨env.now, env.token⟩ : TokenEnv) s s := TokenReach.refl
      have h := TokenReach.step s none tk (fuel + 1) h0
      rw [htk] at h
      exact h
    rw [getDeviceActivityAsync.eq_def, htk]
    cases res with
    | diverge => exact hs1
    | err e => exact hs1
    | ok t =>
      cases hapi : env.api j lock.id count with
      | ok resp => exact hs1
      | error e =>
        simp only
        split
        · exact TokenReach.trans hs1
            (ih s1 (effectiveRetry cfg.maximumApiRetry rc - 1) none (tk + nt) (j + 1))
        · exact hs1

/-- The final state of a command operation is reachable from the initial state
through token-acquisition transitions alone. -/
theorem operationAsync_reach (cfg : Configuration) (env : OpEnv) (lock : Lock) :
    ∀ (fuel : Nat) (s : ClientState) (rc : Option Int) (tk j pf : Nat),
      TokenReach cfg ⟨env.now, env.token⟩ s
        (operationAsync cfg env s lock rc tk j pf fuel).2.1 := by
  intro fuel
  induction fuel with
  | zero =>
    intro s rc tk j pf
    rcases htk : getAccessTokenAsync cfg ⟨env.now, env.token⟩ s none tk 0 with ⟨res, s1, nt⟩
    have hs1 : TokenReach cfg ⟨env.now, env.token⟩ s s1 := by
      have h0 : TokenReach cfg (⟨env.now, env.token⟩ : TokenEnv) s s := TokenReach.refl
      have h := TokenReach.step s none tk 0 h0
      rw [htk] at h
      exact h
    rw [operationAsync.eq_def, htk]
    cases res with
    | diverge => exact hs1
    | err e => exact hs1
    | ok t =>
      rcases ha : opAttempt env j lock.id pf with ⟨ares, polls⟩
      cases ares with
      | ok u => exact hs1
      | diverge => exact hs1
      | err e =>
        simp only
        split
        · exact hs1
        · exact hs1
  | succ fuel ih =>
    intro s rc tk j pf
    rcases htk : getAccessTokenAsync cfg ⟨env.now, env.token⟩ s none tk (fuel + 1) with ⟨res, s1, nt⟩
    have hs1 : TokenReach cfg ⟨env.now, env.token⟩ s s1 := by
      have h0 : TokenReach cfg (⟨env.now, env.token⟩ : TokenEnv) s s := TokenReach.refl
      have h := TokenReach.step s none tk (fuel + 1) h0
      rw [htk] at h
      exact h
    rw [operationAsync.eq_def, htk]
    cases res with
    | diverge => exact hs1
    | err e => exact hs1
    | ok t =>
      rcases ha : opAttempt env j lock.id pf with ⟨ares, polls⟩
      cases ares with
      | ok u => exact hs1
      | diverge => exact hs1
      | err e =>
        simp only
        split
        · exact TokenReach.trans hs1
            (ih s1 (some (effectiveRetry cfg.maximumApiRetry rc - 1)) (tk + nt) (j + 1) pf)
        · exact hs1

/-- A client state satisfying the invariant, whose token is not the empty string
but fails the truthiness test, is the all-null state. -/
theorem clientState_null_of_miss (s : ClientState) (hinv : Inv s)
    (hne : s.accessToken ≠ some "") (hmiss : s.accessToken.getD "" = "") :
    s = ⟨none, none⟩ := by
  obtain ⟨expd, acc⟩ := s
  cases acc with
  | none =>
    simp only [Inv] at hinv
    have hexp : expd = none := by simpa using hinv
    subst hexp
    rfl
  | some t =>
    simp only [Option.getD_some] at hmiss
    subst hmiss
    exact absurd rfl hne

/-- The expiry check either leaves the state unchanged or nulls both fields. -/
theorem invalidateIfExpired_cases (nowMs : Int) (s : ClientState) :
    invalidateIfExpired nowMs s = s ∨ invalidateIfExpired nowMs s = ⟨none, none⟩ := by
  rcases h : s.expirationDateTime with _ | exp
  · left
    unfold invalidateIfExpired
    rw [h]
  · by_cases hlt : exp < nowMs - 120 * 1000
    · right
      unfold invalidateIfExpired
      rw [h]
      show (if exp < nowMs - 120 * 1000 then (⟨none, none⟩ : ClientState) else s) = ⟨none, none⟩
      rw [if_pos hlt]
    · left
      unfold invalidateIfExpired
      rw [h]
      show (if exp < nowMs - 120 * 1000 then (⟨none, none⟩ : ClientState) else s) = s
      rw [if_neg hlt]

/-- The behaviour of `getAccessTokenAsync` only depends on the initial state
through the result of the expiry check. -/
theorem getAccessTokenAsync_state_irrelev (cfg : Configuration) (env : TokenEnv)
    (s : ClientState) (rc : Option Int) (k fuel : Nat)
    (h : invalidateIfExpired (env.now k) s = ⟨none, none⟩) :
    getAccessTokenAsync cfg env s rc k fuel =
      getAccessTokenAsync cfg env ⟨none, none⟩ rc k fuel := by
  rw [getAccessTokenAsync.eq_def]
  conv_rhs => rw [getAccessTokenAsync.eq_def]
  simp only [h]
  simp [invalidateIfExpired]

/-- A cache hit (in the truthiness sense) returns the cached token without any
request, whatever the initial state was. -/
theorem getAccessTokenAsync_hit_general (cfg : Configuration) (env : TokenEnv)
    (s : ClientState) (rc : Option Int) (k fuel : Nat)
    (h : (invalidateIfExpired (env.now k) s).accessToken.getD "" ≠ "") :
    getAccessTokenAsync cfg env s rc k fuel =
      (.ok ((invalidateIfExpired (env.now k) s).accessToken.getD ""),
       invalidateIfExpired (env.now k) s, 0) := by
  rw [getAccessTokenAsync.eq_def]
  simp [h]

/-- `invalidateIfExpired` preserves the null-together invariant. -/
theorem invalidateIfExpired_inv (nowMs : Int) (s : ClientState) (h : Inv s) :
    Inv (invalidateIfExpired nowMs s) := by
  rcases invalidateIfExpired_cases nowMs s with hc | hc
  · rw [hc]
    exact h
  · rw [hc]
    simp [Inv]

/-- `getAccessTokenAsync` preserves the null-together invariant. -/
theorem getAccessTokenAsync_inv (cfg : Configuration) (env : TokenEnv) :
    ∀ (fuel : Nat) (s : ClientState) (rc : Option Int) (k : Nat), Inv s →
      Inv (getAccessTokenAsync cfg env s rc k fuel).2.1 := by
  intro fuel
  induction fuel with
  | zero =>
    intro s rc k h
    have h1 : Inv (invalidateIfExpired (env.now k) s) := invalidateIfExpired_inv _ s h
    by_cases hmiss : (invalidateIfExpired (env.now k) s).accessToken.getD "" = ""
    · rw [getAccessTokenAsync.eq_def]
      simp only [hmiss, if_pos]
      cases henv : env.resp k with
      | ok tr => simp [Inv]
      | error e2 =>
        simp only
        split
        · exact h1
        · exact h1
    · rw [getAccessTokenAsync_hit_general cfg env s rc k 0 hmiss]
      exact h1
  | succ fuel ih =>
    intro s rc k h
    have h1 : Inv (invalidateIfExpired (env.now k) s) := invalidateIfExpired_inv _ s h
    by_cases hmiss : (invalidateIfExpired (env.now k) s).accessToken.getD "" = ""
    · rw [getAccessTokenAsync.eq_def]
      simp only [hmiss, if_pos]
      cases henv : env.resp k with
      | ok tr => simp [Inv]
      | error e2 =>
        simp only
        split
        · exact ih _ _ _ h1
        · exact h1
    · rw [getAccessTokenAsync_hit_general cfg env s rc k (fuel + 1) hmiss]
      exact h1

/-- Any state reached through token-acquisition transitions from an invariant state
satisfies the invariant. -/
theorem tokenReach_inv {cfg : Configuration} {te : TokenEnv} {a b : ClientState}
    (h : TokenReach cfg te a b) (ha : Inv a) : Inv b := by
  induction h with
  | refl => exact ha
  | step s1 rc k fuel hr ih => exact getAccessTokenAsync_inv cfg te fuel s1 rc k ih

/-- When `getAccessTokenAsync` throws starting from the all-null state, the final
state is still all-null. -/
theorem getAccessTokenAsync_err_null_aux (cfg : Configuration) (env : TokenEnv) :
    ∀ (fuel : Nat) (rc : Option Int) (k : Nat) (e : Err),
      (getAccessTokenAsync cfg env ⟨none, none⟩ rc k fuel).1 = .err e →
      (getAccessTokenAsync cfg env ⟨none, none⟩ rc k fuel).2.1 = ⟨none, none⟩ := by
  intro fuel
  induction fuel with
  | zero =>
    intro rc k e herr
    rw [getAccessTokenAsync.eq_def] at herr ⊢
    cases henv : env.resp k with
    | ok tr => simp [invalidateIfExpired, henv] at herr
    | error e2 =>
      by_cases hgt : effectiveRetry cfg.maximumTokenRetry rc - 1 > 0
      · simp [invalidateIfExpired, henv, hgt] at herr
      · simp [invalidateIfExpired, henv, hgt]
  | succ fuel ih =>
    intro rc k e herr
    rw [getAccessTokenAsync.eq_def] at herr ⊢
    cases henv : env.resp k with
    | ok tr => simp [invalidateIfExpired, henv] at herr
    | error e2 =>
      by_cases hgt : effectiveRetry cfg.maximumTokenRetry rc - 1 > 0
      · simp [invalidateIfExpired, henv, hgt] at herr ⊢
        exact ih _ _ e herr
      · simp [invalidateIfExpired, henv, hgt]

/-- When `getAccessTokenAsync` throws from an invariant state whose cached token is
not the empty string, the final state has both fields null: the client retains no
stale token after a failed refresh. -/
theorem getAccessTokenAsync_err_null (cfg : Configuration) (env : TokenEnv)
    (fuel : Nat) (s : ClientState) (rc : Option Int) (k : Nat) (e : Err)
    (hinv : Inv s) (hne : s.accessToken ≠ some "")
    (herr : (getAccessTokenAsync cfg env s rc k fuel).1 = .err e) :
    (getAccessTokenAsync cfg env s rc k fuel).2.1 = ⟨none, none⟩ := by
  by_cases hmiss : (invalidateIfExpired (env.now k) s).accessToken.getD "" = ""
  · have hinv1 : Inv (invalidateIfExpired (env.now k) s) :=
      invalidateIfExpired_inv _ s hinv
    have hne1 : (invalidateIfExpired (env.now k) s).accessToken ≠ some "" := by
      rcases invalidateIfExpired_cases (env.now k) s with h | h
      · rw [h]
        exact hne
      · rw [h]
        simp
    have hnull : invalidateIfExpired (env.now k) s = ⟨none, none⟩ :=
      clientState_null_of_miss _ hinv1 hne1 hmiss
    rw [getAccessTokenAsync_state_irrelev cfg env s rc k fuel hnull] at herr ⊢
    exact getAccessTokenAsync_err_null_aux cfg env fuel rc k e herr
  · rw [getAccessTokenAsync_hit_general cfg env s rc k fuel hmiss] at herr
    simp at herr

/-! Shared lemmas: a `retryCount` of 0 is falsy, hence equivalent to omitting it. -/

/-- `getAccessTokenAsync` treats `retryCount = 0` exactly like an omitted argument. -/
theorem getAccessTokenAsync_rc0 (cfg : Configuration) (env : TokenEnv) (s : ClientState)
    (k fuel : Nat) :
    getAccessTokenAsync cfg env s (some 0) k fuel =
      getAccessTokenAsync cfg env s none k fuel := by
  rw [getAccessTokenAsync.eq_def, getAccessTokenAsync.eq_def]
  simp [effectiveRetry]

/-- `getResourceAsync` treats `retryCount = 0` exactly like an omitted argument. -/
theorem getResourceAsync_rc0 {α : Type} (cfg : Configuration) (env : ResourceEnv α)
    (s : ClientState) (tk j fuel : Nat) :
    getResourceAsync cfg env s (some 0) tk j fuel =
      getResourceAsync cfg env s none tk j fuel := by
  rw [getResourceAsync.eq_def, getResourceAsync.eq_def]
  simp [effectiveRetry]

/-- `getDeviceActivityAsync` treats `retryCount = 0` exactly like an omitted argument. -/
theorem getDeviceActivityAsync_rc0 (cfg : Configuration) (env : ActivityEnv)
    (s : ClientState) (lock : Lock) (count : Int) (tk j fuel : Nat) :
    getDeviceActivityAsync cfg env s lock count (some 0) tk j fuel =
      getDeviceActivityAsync cfg env s lock count none tk j fuel := by
  rw [getDeviceActivityAsync.eq_def, getDeviceActivityAsync.eq_def]
  simp [effectiveRetry]

/-- `operationAsync` treats `retryCount = 0` exactly like an omitted argument. -/
theorem operationAsync_rc0 (cfg : Configuration) (env : OpEnv) (s : ClientState)
    (lock : Lock) (tk j pf fuel : Nat) :
    operationAsync cfg env s lock (some 0) tk j pf fuel =
      operationAsync cfg env s lock none tk j pf fuel := by
  rw [operationAsync.eq_def, operationAsync.eq_def]
  simp [effectiveRetry]

/-! Shared lemmas about the name filter of `getLockByNameAsync`. -/

/-- The code-side filter `find(l => l.name === name)` coincides with the spec-side
first-match function. -/
theorem find_eq_firstLockNamed (name : String) (locks : List Lock) :
    locks.find? (fun l => l.name == name) = firstLockNamed name locks := by
  induction locks with
  | nil => rfl
  | cons l ls ih =>
    rw [List.find?_cons]
    by_cases h : l.name = name
    · simp [firstLockNamed, h]
    · have hb : (l.name == name) = false := by simp [h]
      simp [firstLockNamed, h, ih, hb]

/-- The first-match function returns `none` exactly when no lock has the name. -/
theorem firstLockNamed_none_iff (name : String) (locks : List Lock) :
    firstLockNamed name locks = none ↔ ∀ l ∈ locks, l.name ≠ name := by
  induction locks with
  | nil => simp [firstLockNamed]
  | cons l ls ih =>
    by_cases h : l.name = name
    · simp [firstLockNamed, h]
    · simp [firstLockNamed, h, ih]

/-- A lock returned by the first-match function has the name and is in the list. -/
theorem firstLockNamed_some (name : String) (locks : List Lock) (l : Lock)
    (h : firstLockNamed name locks = some l) : l.name = name ∧ l ∈ locks := by
  induction locks with
  | nil => simp [firstLockNamed] at h
  | cons a ls ih =>
    simp only [firstLockNamed] at h
    by_cases ha : a.name = name
    · rw [if_pos ha] at h
      injection h with h
      subst h
      exact ⟨ha, List.mem_cons_self a ls⟩
    · rw [if_neg ha] at h
      obtain ⟨h1, h2⟩ := ih h
      exact ⟨h1, List.mem_cons_of_mem a h2⟩

/-- When `getLocksAsync` succeeds, `getLockByNameAsync` returns exactly the
first-match filter of the returned list, with the same state and attempt count. -/
theorem getLockByNameAsync_ok (cfg : Configuration) (env : ResourceEnv (List Lock))
    (s : ClientState) (name : String) (rc : Option Int) (tk j fuel : Nat)
    (locks : List Lock) (s2 : ClientState) (n : Nat)
    (h : getLocksAsync cfg env s rc tk j fuel = (.ok locks, s2, n)) :
    getLockByNameAsync cfg env s name rc tk j fuel =
      (.ok (firstLockNamed name locks), s2, n) := by
  unfold getLockByNameAsync
  rw [h]
  simp [find_eq_firstLockNamed]

/-! Claim theorems. -/

/-- C2: when every attempt fails, token acquisition performs exactly
`maximumTokenRetry` requests and rethrows the last original error unchanged, and
`getLocksAsync` performs exactly `maximumApiRetry` attempts and rethrows the last
original error unchanged — but, contrary to the claim, `getDeviceActivityAsync`
never throws at all once `maximumApiRetry ≥ 2`: its recursive retry call passes the
decremented retry count as the `count` argument and omits `retryCount`, so the
budget re-defaults on every recursion and the call diverges (exhausts every fuel). -/
theorem c2_retry_exhaustion :
    (∀ (cfg : Configuration) (env : TokenEnv) (es : Nat → Err) (k fuel : Nat),
      (∀ i, env.resp i = .error (es i)) →
      1 ≤ cfg.maximumTokenRetry → cfg.maximumTokenRetry.toNat ≤ fuel + 1 →
      getAccessTokenAsync cfg env ⟨none, none⟩ none k fuel =
        (.err (es (k + (cfg.maximumTokenRetry.toNat - 1))), ⟨none, none⟩,
         cfg.maximumTokenRetry.toNat))
    ∧ (∀ (cfg : Configuration) (env : ResourceEnv (List Lock)) (s : ClientState)
        (tok : String) (exp : Int) (es : Nat → Err) (tk j fuel : Nat),
        s.accessToken = some tok → tok ≠ "" → s.expirationDateTime = some exp →
        (∀ t, ¬ exp < env.now t - 120 * 1000) →
        (∀ i, env.api i = .error (es i)) →
        1 ≤ cfg.maximumApiRetry → cfg.maximumApiRetry.toNat ≤ fuel + 1 →
        getLocksAsync cfg env s none tk j fuel =
          (.err (es (j + (cfg.maximumApiRetry.toNat - 1))), s, cfg.maximumApiRetry.toNat))
    ∧ (∀ (cfg : Configuration) (env : ActivityEnv) (s : ClientState) (lock : Lock)
        (tok : String) (exp : Int) (ef : Nat → Int → Err) (fuel tk j : Nat) (count : Int),
        s.accessToken = some tok → tok ≠ "" → s.expirationDateTime = some exp →
        (∀ t, ¬ exp < env.now t - 120 * 1000) →
        2 ≤ cfg.maximumApiRetry →
        (∀ i c, env.api i lock.id c = .error (ef i c)) →
        (getDeviceActivityAsync cfg env s lock count none tk j fuel).1 = .diverge) := by
  refine ⟨?_, ?_, ?_⟩
  · intro cfg env es k fuel hfail h1 hle
    exact getAccessTokenAsync_allFail_aux cfg env es hfail fuel none k
      cfg.maximumTokenRetry rfl h1 hle
  · intro cfg env s tok exp es tk j fuel hacc htok hexp hnow hfail h1 hle
    exact getResourceAsync_allFail_aux cfg env s tok exp es hacc htok hexp hnow hfail
      fuel none tk j cfg.maximumApiRetry rfl h1 hle
  · intro cfg env s lock tok exp ef fuel tk j count hacc htok hexp hnow h2 hfail
    exact getDeviceActivityAsync_allFail_diverge cfg env s lock tok exp ef
      hacc htok hexp hnow h2 hfail fuel tk j count

/-- Witness for C2 at concrete inputs: two token retries against a failing endpoint
throw error 7 after exactly 2 requests; two lock retries throw error 9 after
exactly 2 attempts; the device-activity call with a failing endpoint diverges. -/
theorem c2_retry_exhaustion_witness :
    getAccessTokenAsync ⟨2, 2⟩ ⟨fun _ => 0, fun _ => .error 7⟩ ⟨none, none⟩ none 0 5 =
      (.err 7, ⟨none, none⟩, 2)
    ∧ getLocksAsync ⟨2, 2⟩ ⟨fun _ => 0, fun _ => .ok ⟨"t", 3600⟩, fun _ => .error 9⟩
        ⟨some 1000000, some "tok"⟩ none 0 0 5 = (.err 9, ⟨some 1000000, some "tok"⟩, 2)
    ∧ (getDeviceActivityAsync ⟨2, 2⟩
        ⟨fun _ => 0, fun _ => .ok ⟨"t", 3600⟩, fun _ _ _ => .error 3⟩
        ⟨some 1000000, some "tok"⟩ ⟨5, "door"⟩ 1 none 0 0 6).1 = .diverge := by
  refine ⟨?_, ?_, ?_⟩
  · exact c2_retry_exhaustion.1 ⟨2, 2⟩ ⟨fun _ => 0, fun _ => .error 7⟩ (fun _ => 7) 0 5
      (fun _ => rfl) (by decide) (by decide)
  · exact c2_retry_exhaustion.2.1 ⟨2, 2⟩ ⟨fun _ => 0, fun _ => .ok ⟨"t", 3600⟩, fun _ => .error 9⟩
      ⟨some 1000000, some "tok"⟩ "tok" 1000000 (fun _ => 9) 0 0 5
      rfl (by decide) rfl (fun _ => (by decide : ¬ (1000000 : Int) < 0 - 120 * 1000))
      (fun _ => rfl) (by decide) (by decide)
  · exact c2_retry_exhaustion.2.2 ⟨2, 2⟩
      ⟨fun _ => 0, fun _ => .ok ⟨"t", 3600⟩, fun _ _ _ => .error 3⟩
      ⟨some 1000000, some "tok"⟩ ⟨5, "door"⟩ "tok" 1000000 (fun _ _ => 3) 6 0 0 1
      rfl (by decide) rfl (fun _ => (by decide : ¬ (1000000 : Int) < 0 - 120 * 1000))
      (by decide) (fun _ _ => rfl)

/-- C3: for every public API operation called with the default retry count, if the
first `k` attempts fail (`k < maximumApiRetry`) and attempt `k+1` succeeds, the
call returns the success result of attempt `k+1` and performs exactly `k+1`
attempts, leaving the cached-token state unchanged. For `getDeviceActivityAsync`
the attempts are the trace entries (the trace also records that retries request
`maximumApiRetry - 1` elements); for the command operations an attempt is a
POST-plus-poll `opAttempt` and success means normal completion. -/
theorem c3_success_after_k_failures :
    (∀ (cfg : Configuration) (env : ResourceEnv (List Lock)) (s : ClientState)
      (tok : String) (exp : Int) (k fuel tk j : Nat) (es : Nat → Err)
      (resp : ApiResponse (List Lock)),
      s.accessToken = some tok → tok ≠ "" → s.expirationDateTime = some exp →
      (∀ t, ¬ exp < env.now t - 120 * 1000) →
      (k : Int) < cfg.maximumApiRetry →
      (∀ i, i < k → env.api (j + i) = .error (es i)) →
      env.api (j + k) = .ok resp → k ≤ fuel →
      getLocksAsync cfg env s none tk j fuel = (.ok resp.result, s, k + 1))
    ∧ (∀ (cfg : Configuration) (env : ResourceEnv (List LockSync)) (s : ClientState)
      (tok : String) (exp : Int) (k fuel tk j : Nat) (es : Nat → Err)
      (resp : ApiResponse (List LockSync)),
      s.accessToken = some tok → tok ≠ "" → s.expirationDateTime = some exp →
      (∀ t, ¬ exp < env.now t - 120 * 1000) →
      (k : Int) < cfg.maximumApiRetry →
      (∀ i, i < k → env.api (j + i) = .error (es i)) →
      env.api (j + k) = .ok resp → k ≤ fuel →
      syncLocksAsync cfg env s none tk j fuel = (.ok resp.result, s, k + 1))
    ∧ (∀ (cfg : Configuration) (env : ResourceEnv LockSync) (s : ClientState)
      (lockId : Int) (tok : String) (exp : Int) (k fuel tk j : Nat) (es : Nat → Err)
      (resp : ApiResponse LockSync),
      s.accessToken = some tok → tok ≠ "" → s.expirationDateTime = some exp →
      (∀ t, ¬ exp < env.now t - 120 * 1000) →
      (k : Int) < cfg.maximumApiRetry →
      (∀ i, i < k → env.api (j + i) = .error (es i)) →
      env.api (j + k) = .ok resp → k ≤ fuel →
      syncLockAsync cfg env s lockId none tk j fuel = (.ok resp.result, s, k + 1))
    ∧ (∀ (cfg : Configuration) (env : ActivityEnv) (s : ClientState) (lock : Lock)
      (tok : String) (exp : Int) (k fuel tk j : Nat) (count : Int) (es : Nat → Err)
      (resp : ApiResponse (List DeviceActivity)),
      s.accessToken = some tok → tok ≠ "" → s.expirationDateTime = some exp →
      (∀ t, ¬ exp < env.now t - 120 * 1000) →
      (k : Int) < cfg.maximumApiRetry →
      (∀ i c, i < k → env.api (j + i) lock.id c = .error (es i)) →
      (∀ c, env.api (j + k) lock.id c = .ok resp) → k ≤ fuel →
      getDeviceActivityAsync cfg env s lock count none tk j fuel =
        (.ok resp.result, s, count :: List.replicate k (cfg.maximumApiRetry - 1)))
    ∧ (∀ (cfg : Configuration) (env : OpEnv) (s : ClientState) (lock : Lock)
      (tok : String) (exp : Int) (k fuel tk j pf : Nat) (es : Nat → Err)
      (ps : Nat → Nat) (pk : Nat),
      s.accessToken = some tok → tok ≠ "" → s.expirationDateTime = some exp →
      (∀ t, ¬ exp < env.now t - 120 * 1000) →
      (k : Int) < cfg.maximumApiRetry →
      (∀ i, i < k → opAttempt env (j + i) lock.id pf = (.err (es i), ps i)) →
      opAttempt env (j + k) lock.id pf = (.ok (), pk) → k ≤ fuel →
      ((closeAsync cfg env s lock none tk j pf fuel).1 = .ok ()
        ∧ (closeAsync cfg env s lock none tk j pf fuel).2.1 = s
        ∧ (closeAsync cfg env s lock none tk j pf fuel).2.2.1 = k + 1))
    ∧ (∀ (cfg : Configuration) (env : OpEnv) (s : ClientState) (lock : Lock)
      (tok : String) (exp : Int) (k fuel tk j pf : Nat) (es : Nat → Err)
      (ps : Nat → Nat) (pk : Nat),
      s.accessToken = some tok → tok ≠ "" → s.expirationDateTime = some exp →
      (∀ t, ¬ exp < env.now t - 120 * 1000) →
      (k : Int) < cfg.maximumApiRetry →
      (∀ i, i < k → opAttempt env (j + i) lock.id pf = (.err (es i), ps i)) →
      opAttempt env (j + k) lock.id pf = (.ok (), pk) → k ≤ fuel →
      ((openAsync cfg env s lock none tk j pf fuel).1 = .ok ()
        ∧ (openAsync cfg env s lock none tk j pf fuel).2.1 = s
        ∧ (openAsync cfg env s lock none tk j pf fuel).2.2.1 = k + 1))
    ∧ (∀ (cfg : Configuration) (env : OpEnv) (s : ClientState) (lock : Lock)
      (tok : String) (exp : Int) (k fuel tk j pf : Nat) (es : Nat → Err)
      (ps : Nat → Nat) (pk : Nat),
      s.accessToken = some tok → tok ≠ "" → s.expirationDateTime = some exp →
      (∀ t, ¬ exp < env.now t - 120 * 1000) →
      (k : Int) < cfg.maximumApiRetry →
      (∀ i, i < k → opAttempt env (j + i) lock.id pf = (.err (es i), ps i)) →
      opAttempt env (j + k) lock.id pf = (.ok (), pk) → k ≤ fuel →
      ((pullSpringAsync cfg env s lock none tk j pf fuel).1 = .ok ()
        ∧ (pullSpringAsync cfg env s lock none tk j pf fuel).2.1 = s
        ∧ (pullSpringAsync cfg env s lock none tk j pf fuel).2.2.1 = k + 1)) := by
  refine ⟨?_, ?_, ?_, ?_, ?_, ?_, ?_⟩
  · intro cfg env s tok exp k fuel tk j es resp hacc htok hexp hnow hk hlt hok hfuel
    exact getResourceAsync_succeedsAfterK cfg env s tok exp hacc htok hexp hnow
      k fuel tk j none cfg.maximumApiRetry es resp rfl hk hlt hok hfuel
  · intro cfg env s tok exp k fuel tk j es resp hacc htok hexp hnow hk hlt hok hfuel
    exact getResourceAsync_succeedsAfterK cfg env s tok exp hacc htok hexp hnow
      k fuel tk j none cfg.maximumApiRetry es resp rfl hk hlt hok hfuel
  · intro cfg env s lockId tok exp k fuel tk j es resp hacc htok hexp hnow hk hlt hok hfuel
    exact getResourceAsync_succeedsAfterK cfg env s tok exp hacc htok hexp hnow
      k fuel tk j none cfg.maximumApiRetry es resp rfl hk hlt hok hfuel
  · intro cfg env s lock tok exp k fuel tk j count es resp hacc htok hexp hnow hk hlt hok hfuel
    exact getDeviceActivityAsync_succeedsAfterK cfg env s lock tok exp hacc htok hexp hnow
      k fuel tk j count es resp hk (fun i c hi => hlt i c hi) hok hfuel
  · intro cfg env s lock tok exp k fuel tk j pf es ps pk hacc htok hexp hnow hk hlt hok hfuel
    exact operationAsync_succeedsAfterK cfg env s lock tok exp hacc htok hexp hnow
      k fuel tk j pf none cfg.maximumApiRetry es ps pk rfl hk hlt hok hfuel
  · intro cfg env s lock tok exp k fuel tk j pf es ps pk hacc htok hexp hnow hk hlt hok hfuel
    exact operationAsync_succeedsAfterK cfg env s lock tok exp hacc htok hexp hnow
      k fuel tk j pf none cfg.maximumApiRetry es ps pk rfl hk hlt hok hfuel
  · intro cfg env s lock tok exp k fuel tk j pf es ps pk hacc htok hexp hnow hk hlt hok hfuel
    exact operationAsync_succeedsAfterK cfg env s lock tok exp hacc htok hexp hnow
      k fuel tk j pf none cfg.maximumApiRetry es ps pk rfl hk hlt hok hfuel

/-- Witness for C3 at concrete inputs: with `maximumApiRetry = 2`, one failing
attempt followed by a success yields the success result after exactly 2 attempts
for each of the seven operations. -/
theorem c3_success_after_k_failures_witness :
    getLocksAsync ⟨2, 2⟩
      ⟨fun _ => 0, fun _ => .ok ⟨"t", 3600⟩,
       fun i => if i = 0 then .error 4 else .ok ⟨true, [], 200, [⟨1, "a"⟩]⟩⟩
      ⟨some 1000000, some "tok"⟩ none 0 0 5 =
      (.ok [⟨1, "a"⟩], ⟨some 1000000, some "tok"⟩, 2)
    ∧ syncLocksAsync ⟨2, 2⟩
      ⟨fun _ => 0, fun _ => .ok ⟨"t", 3600⟩,
       fun i => if i = 0 then .error 4 else .ok ⟨true, [], 200, [⟨7⟩]⟩⟩
      ⟨some 1000000, some "tok"⟩ none 0 0 5 =
      (.ok [⟨7⟩], ⟨some 1000000, some "tok"⟩, 2)
    ∧ syncLockAsync ⟨2, 2⟩
      ⟨fun _ => 0, fun _ => .ok ⟨"t", 3600⟩,
       fun i => if i = 0 then .error 4 else .ok ⟨true, [], 200, ⟨7⟩⟩⟩
      ⟨some 1000000, some "tok"⟩ 7 none 0 0 5 =
      (.ok ⟨7⟩, ⟨some 1000000, some "tok"⟩, 2)
    ∧ getDeviceActivityAsync ⟨2, 2⟩
      ⟨fun _ => 0, fun _ => .ok ⟨"t", 3600⟩,
       fun i _ _ => if i = 0 then .error 4 else .ok ⟨true, [], 200, [⟨1, 5, 2, "u", 3, 4, "d"⟩]⟩⟩
      ⟨some 1000000, some "tok"⟩ ⟨5, "door"⟩ 1 none 0 0 5 =
      (.ok [⟨1, 5, 2, "u", 3, 4, "d"⟩], ⟨some 1000000, some "tok"⟩, [1, 1])
    ∧ ((closeAsync ⟨2, 2⟩
        ⟨fun _ => 0, fun _ => .ok ⟨"t", 3600⟩,
         fun i _ => if i = 0 then .error 4 else .ok ⟨true, [], 200, ⟨9, .Completed⟩⟩,
         fun _ _ _ => .ok ⟨true, [], 200, ⟨9, .Completed⟩⟩⟩
        ⟨some 1000000, some "tok"⟩ ⟨5, "door"⟩ none 0 0 3 5).1 = .ok ()
      ∧ (closeAsync ⟨2, 2⟩
        ⟨fun _ => 0, fun _ => .ok ⟨"t", 3600⟩,
         fun i _ => if i = 0 then .error 4 else .ok ⟨true, [], 200, ⟨9, .Completed⟩⟩,
         fun _ _ _ => .ok ⟨true, [], 200, ⟨9, .Completed⟩⟩⟩
        ⟨some 1000000, some "tok"⟩ ⟨5, "door"⟩ none 0 0 3 5).2.2.1 = 2)
    ∧ ((openAsync ⟨2, 2⟩
        ⟨fun _ => 0, fun _ => .ok ⟨"t", 3600⟩,
         fun i _ => if i = 0 then .error 4 else .ok ⟨true, [], 200, ⟨9, .Completed⟩⟩,
         fun _ _ _ => .ok ⟨true, [], 200, ⟨9, .Completed⟩⟩⟩
        ⟨some 1000000, some "tok"⟩ ⟨5, "door"⟩ none 0 0 3 5).1 = .ok ())
    ∧ ((pullSpringAsync ⟨2, 2⟩
        ⟨fun _ => 0, fun _ => .ok ⟨"t", 3600⟩,
         fun i _ => if i = 0 then .error 4 else .ok ⟨true, [], 200, ⟨9, .Completed⟩⟩,
         fun _ _ _ => .ok ⟨true, [], 200, ⟨9, .Completed⟩⟩⟩
        ⟨some 1000000, some "tok"⟩ ⟨5, "door"⟩ none 0 0 3 5).1 = .ok ()) := by
  have hnow : ∀ t : Nat, ¬ (1000000 : Int) < 0 - 120 * 1000 := fun _ => by decide
  refine ⟨?_, ?_, ?_, ?_, ⟨?_, ?_⟩, ?_, ?_⟩
  · exact c3_success_after_k_failures.1 ⟨2, 2⟩ _ _ "tok" 1000000 1 5 0 0 (fun _ => 4)
      ⟨true, [], 200, [⟨1, "a"⟩]⟩ rfl (by decide) rfl (fun t => hnow t) (by decide)
      (fun i hi => by have h0 : i = 0 := Nat.lt_one_iff.mp hi; subst h0; rfl) rfl (by decide)
  · exact c3_success_after_k_failures.2.1 ⟨2, 2⟩ _ _ "tok" 1000000 1 5 0 0 (fun _ => 4)
      ⟨true, [], 200, [⟨7⟩]⟩ rfl (by decide) rfl (fun t => hnow t) (by decide)
      (fun i hi => by have h0 : i = 0 := Nat.lt_one_iff.mp hi; subst h0; rfl) rfl (by decide)
  · exact c3_success_after_k_failures.2.2.1 ⟨2, 2⟩ _ _ 7 "tok" 1000000 1 5 0 0 (fun _ => 4)
      ⟨true, [], 200, ⟨7⟩⟩ rfl (by decide) rfl (fun t => hnow t) (by decide)
      (fun i hi => by have h0 : i = 0 := Nat.lt_one_iff.mp hi; subst h0; rfl) rfl (by decide)
  · exact c3_success_after_k_failures.2.2.2.1 ⟨2, 2⟩ _ _ ⟨5, "door"⟩ "tok" 1000000 1 5 0 0 1
      (fun _ => 4) ⟨true, [], 200, [⟨1, 5, 2, "u", 3, 4, "d"⟩]⟩ rfl (by decide) rfl
      (fun t => hnow t) (by decide)
      (fun i c hi => by have h0 : i = 0 := Nat.lt_one_iff.mp hi; subst h0; rfl) (fun c => rfl) (by decide)
  · exact (c3_success_after_k_failures.2.2.2.2.1 ⟨2, 2⟩
      ⟨fun _ => 0, fun _ => .ok ⟨"t", 3600⟩,
         fun i _ => if i = 0 then .error 4 else .ok ⟨true, [], 200, ⟨9, .Completed⟩⟩,
         fun _ _ _ => .ok ⟨true, [], 200, ⟨9, .Completed⟩⟩⟩
      ⟨some 1000000, some "tok"⟩ ⟨5, "door"⟩ "tok" 1000000 1 5 0 0 3
      (fun _ => 4) (fun _ => 0) 0 rfl (by decide) rfl (fun t => hnow t) (by decide)
      (fun i hi => by have h0 : i = 0 := Nat.lt_one_iff.mp hi; subst h0; rfl) rfl (by decide)).1
  · exact (c3_success_after_k_failures.2.2.2.2.1 ⟨2, 2⟩
      ⟨fun _ => 0, fun _ => .ok ⟨"t", 3600⟩,
         fun i _ => if i = 0 then .error 4 else .ok ⟨true, [], 200, ⟨9, .Completed⟩⟩,
         fun _ _ _ => .ok ⟨true, [], 200, ⟨9, .Completed⟩⟩⟩
      ⟨some 1000000, some "tok"⟩ ⟨5, "door"⟩ "tok" 1000000 1 5 0 0 3
      (fun _ => 4) (fun _ => 0) 0 rfl (by decide) rfl (fun t => hnow t) (by decide)
      (fun i hi => by have h0 : i = 0 := Nat.lt_one_iff.mp hi; subst h0; rfl) rfl (by decide)).2.2
  · exact (c3_success_after_k_failures.2.2.2.2.2.1 ⟨2, 2⟩
      ⟨fun _ => 0, fun _ => .ok ⟨"t", 3600⟩,
         fun i _ => if i = 0 then .error 4 else .ok ⟨true, [], 200, ⟨9, .Completed⟩⟩,
         fun _ _ _ => .ok ⟨true, [], 200, ⟨9, .Completed⟩⟩⟩
      ⟨some 1000000, some "tok"⟩ ⟨5, "door"⟩ "tok" 1000000 1 5 0 0 3
      (fun _ => 4) (fun _ => 0) 0 rfl (by decide) rfl (fun t => hnow t) (by decide)
      (fun i hi => by have h0 : i = 0 := Nat.lt_one_iff.mp hi; subst h0; rfl) rfl (by decide)).1
  · exact (c3_success_after_k_failures.2.2.2.2.2.2 ⟨2, 2⟩
      ⟨fun _ => 0, fun _ => .ok ⟨"t", 3600⟩,
         fun i _ => if i = 0 then .error 4 else .ok ⟨true, [], 200, ⟨9, .Completed⟩⟩,
         fun _ _ _ => .ok ⟨true, [], 200, ⟨9, .Completed⟩⟩⟩
      ⟨some 1000000, some "tok"⟩ ⟨5, "door"⟩ "tok" 1000000 1 5 0 0 3
      (fun _ => 4) (fun _ => 0) 0 rfl (by decide) rfl (fun t => hnow t) (by decide)
      (fun i hi => by have h0 : i = 0 := Nat.lt_one_iff.mp hi; subst h0; rfl) rfl (by decide)).1

/-- C4: `getLatestDeviceActivityAsync` does return the first element of the
returned list (or `none` on an empty list) — the last two conjuncts — but,
contrary to the claim, it does NOT request `elements = 1` on every attempt: with
`maximumApiRetry = 3` and a first attempt that fails, the retry requests
`elements = 2` (the decremented retry count passed in the `count` position), as
the request trace `[1, 2]` of the first conjunct shows. -/
theorem c4_latest_activity_elements_trace :
    getLatestDeviceActivityAsync ⟨3, 3⟩
      ⟨fun _ => 0, fun _ => .ok ⟨"t", 3600⟩,
       fun j _ _ => if j = 0 then .error 4
         else .ok ⟨true, [], 200, [⟨1, 5, 2, "u", 3, 4, "d"⟩]⟩⟩
      ⟨some 1000000, some "tok"⟩ ⟨5, "door"⟩ none 0 0 9 =
      (.ok (some ⟨1, 5, 2, "u", 3, 4, "d"⟩), ⟨some 1000000, some "tok"⟩, [1, 2])
    ∧ getLatestDeviceActivityAsync ⟨3, 3⟩
      ⟨fun _ => 0, fun _ => .ok ⟨"t", 3600⟩, fun _ _ _ => .ok ⟨true, [], 200, []⟩⟩
      ⟨some 1000000, some "tok"⟩ ⟨5, "door"⟩ none 0 0 9 =
      (.ok none, ⟨some 1000000, some "tok"⟩, [1])
    ∧ getLatestDeviceActivityAsync ⟨3, 3⟩
      ⟨fun _ => 0, fun _ => .ok ⟨"t", 3600⟩,
       fun _ _ _ => .ok ⟨true, [], 200, [⟨1, 5, 2, "u", 3, 4, "d"⟩]⟩⟩
      ⟨some 1000000, some "tok"⟩ ⟨5, "door"⟩ none 0 0 9 =
      (.ok (some ⟨1, 5, 2, "u", 3, 4, "d"⟩), ⟨some 1000000, some "tok"⟩, [1]) :=
  ⟨by decide, by decide, by decide⟩

/-- C5: for each of `closeAsync`, `openAsync` and `pullSpringAsync`, if the command
POST reports a pending status and the status GETs report pending then `Completed`,
the call returns normally after exactly 2 status GETs, in one attempt. -/
theorem c5_pending_pending_completed_two_polls :
    ∀ (cfg : Configuration) (env : OpEnv) (s : ClientState) (lock : Lock)
      (rc : Option Int) (tk j pf fuel : Nat) (tok : String) (exp : Int)
      (r0 r1 r2 : ApiResponse OperationResult),
      s.accessToken = some tok → tok ≠ "" → s.expirationDateTime = some exp →
      (∀ t, ¬ exp < env.now t - 120 * 1000) →
      env.post j lock.id = .ok r0 → r0.result.status = .Pending →
      env.poll j 0 r0.result.operationId = .ok r1 → r1.result.status = .Pending →
      env.poll j 1 r1.result.operationId = .ok r2 → r2.result.status = .Completed →
      2 ≤ pf →
      (closeAsync cfg env s lock rc tk j pf fuel = (.ok (), s, 1, 2)
        ∧ openAsync cfg env s lock rc tk j pf fuel = (.ok (), s, 1, 2)
        ∧ pullSpringAsync cfg env s lock rc tk j pf fuel = (.ok (), s, 1, 2)) := by
  intro cfg env s lock rc tk j pf fuel tok exp r0 r1 r2
    hacc htok hexp hnow hpost h0 hp0 h1 hp1 h2 hpf
  refine ⟨?_, ?_, ?_⟩ <;>
    exact operationAsync_two_polls cfg env s lock rc tk j pf fuel tok exp
      hacc htok hexp hnow r0 r1 r2 hpost h0 hp0 h1 hp1 h2 hpf

/-- Witness for C5 at concrete inputs: pending POST, then pending and `Completed`
status GETs, yield normal completion with exactly 2 polls for all three commands. -/
theorem c5_pending_pending_completed_two_polls_witness :
    closeAsync ⟨2, 2⟩
      ⟨fun _ => 0, fun _ => .ok ⟨"t", 3600⟩,
       fun _ _ => .ok ⟨true, [], 200, ⟨9, .Pending⟩⟩,
       fun _ i _ => .ok ⟨true, [], 200, ⟨9, if i = 0 then .Pending else .Completed⟩⟩⟩
      ⟨some 1000000, some "tok"⟩ ⟨5, "door"⟩ none 0 0 4 5 =
      (.ok (), ⟨some 1000000, some "tok"⟩, 1, 2)
    ∧ openAsync ⟨2, 2⟩
      ⟨fun _ => 0, fun _ => .ok ⟨"t", 3600⟩,
       fun _ _ => .ok ⟨true, [], 200, ⟨9, .Pending⟩⟩,
       fun _ i _ => .ok ⟨true, [], 200, ⟨9, if i = 0 then .Pending else .Completed⟩⟩⟩
      ⟨some 1000000, some "tok"⟩ ⟨5, "door"⟩ none 0 0 4 5 =
      (.ok (), ⟨some 1000000, some "tok"⟩, 1, 2)
    ∧ pullSpringAsync ⟨2, 2⟩
      ⟨fun _ => 0, fun _ => .ok ⟨"t", 3600⟩,
       fun _ _ => .ok ⟨true, [], 200, ⟨9, .Pending⟩⟩,
       fun _ i _ => .ok ⟨true, [], 200, ⟨9, if i = 0 then .Pending else .Completed⟩⟩⟩
      ⟨some 1000000, some "tok"⟩ ⟨5, "door"⟩ none 0 0 4 5 =
      (.ok (), ⟨some 1000000, some "tok"⟩, 1, 2) :=
  c5_pending_pending_completed_two_polls ⟨2, 2⟩
    ⟨fun _ => 0, fun _ => .ok ⟨"t", 3600⟩,
     fun _ _ => .ok ⟨true, [], 200, ⟨9, .Pending⟩⟩,
     fun _ i _ => .ok ⟨true, [], 200, ⟨9, if i = 0 then .Pending else .Completed⟩⟩⟩
    ⟨some 1000000, some "tok"⟩ ⟨5, "door"⟩ none 0 0 4 5 "tok" 1000000
    ⟨true, [], 200, ⟨9, .Pending⟩⟩ ⟨true, [], 200, ⟨9, .Pending⟩⟩
    ⟨true, [], 200, ⟨9, .Completed⟩⟩
    rfl (by decide) rfl (fun _ => (by decide : ¬ (1000000 : Int) < 0 - 120 * 1000))
    rfl rfl rfl rfl rfl rfl (by decide)

/-- C6: for each of `closeAsync`, `openAsync` and `pullSpringAsync`: the call never
returns normally while no response (POST or status GET, on any attempt) reports
`Completed`; and when the command POST succeeds with a non-`Completed` status and
every status GET succeeds without ever reporting `Completed`, the polling loop
never terminates — the run exhausts every amount of fuel. -/
theorem c6_unbounded_polling :
    (∀ (cfg : Configuration) (env : OpEnv) (s : ClientState) (lock : Lock)
      (rc : Option Int) (tk j pf fuel : Nat),
      (∀ j2 r, env.post j2 lock.id = .ok r → r.result.status ≠ .Completed) →
      (∀ j2 i oid r2, env.poll j2 i oid = .ok r2 → r2.result.status ≠ .Completed) →
      ((closeAsync cfg env s lock rc tk j pf fuel).1 ≠ .ok ()
        ∧ (openAsync cfg env s lock rc tk j pf fuel).1 ≠ .ok ()
        ∧ (pullSpringAsync cfg env s lock rc tk j pf fuel).1 ≠ .ok ()))
    ∧ (∀ (cfg : Configuration) (env : OpEnv) (s : ClientState) (lock : Lock)
      (rc : Option Int) (tk j pf fuel : Nat) (tok : String) (exp : Int)
      (rp : ApiResponse OperationResult) (pr : Nat → Int → ApiResponse OperationResult),
      s.accessToken = some tok → tok ≠ "" → s.expirationDateTime = some exp →
      (∀ t, ¬ exp < env.now t - 120 * 1000) →
      env.post j lock.id = .ok rp → rp.result.status ≠ .Completed →
      (∀ i oid, env.poll j i oid = .ok (pr i oid)) →
      (∀ i oid, (pr i oid).result.status ≠ .Completed) →
      ((closeAsync cfg env s lock rc tk j pf fuel).1 = .diverge
        ∧ (openAsync cfg env s lock rc tk j pf fuel).1 = .diverge
        ∧ (pullSpringAsync cfg env s lock rc tk j pf fuel).1 = .diverge)) := by
  constructor
  · intro cfg env s lock rc tk j pf fuel hpost hpoll
    refine ⟨?_, ?_, ?_⟩ <;>
      exact operationAsync_never_ok cfg env lock hpost hpoll fuel s rc tk j pf
  · intro cfg env s lock rc tk j pf fuel tok exp rp pr
      hacc htok hexp hnow hpost hrp hpoll hpend
    refine ⟨?_, ?_, ?_⟩ <;>
      exact operationAsync_pending_diverge cfg env s lock rc tk j pf fuel tok exp
        hacc htok hexp hnow rp hpost hrp pr hpoll hpend

/-- Witness for C6 at concrete inputs: with every request failing, none of the
three commands returns normally; with pending-forever responses, all three
diverge. -/
theorem c6_unbounded_polling_witness :
    ((closeAsync ⟨2, 2⟩ ⟨fun _ => 0, fun _ => .ok ⟨"t", 3600⟩,
        fun _ _ => .error 2, fun _ _ _ => .error 2⟩
        ⟨some 1000000, some "tok"⟩ ⟨5, "door"⟩ none 0 0 3 5).1 ≠ .ok ()
      ∧ (openAsync ⟨2, 2⟩ ⟨fun _ => 0, fun _ => .ok ⟨"t", 3600⟩,
        fun _ _ => .error 2, fun _ _ _ => .error 2⟩
        ⟨some 1000000, some "tok"⟩ ⟨5, "door"⟩ none 0 0 3 5).1 ≠ .ok ()
      ∧ (pullSpringAsync ⟨2, 2⟩ ⟨fun _ => 0, fun _ => .ok ⟨"t", 3600⟩,
        fun _ _ => .error 2, fun _ _ _ => .error 2⟩
        ⟨some 1000000, some "tok"⟩ ⟨5, "door"⟩ none 0 0 3 5).1 ≠ .ok ())
    ∧ ((closeAsync ⟨2, 2⟩ ⟨fun _ => 0, fun _ => .ok ⟨"t", 3600⟩,
        fun _ _ => .ok ⟨true, [], 200, ⟨9, .Pending⟩⟩,
        fun _ _ _ => .ok ⟨true, [], 200, ⟨9, .Pending⟩⟩⟩
        ⟨some 1000000, some "tok"⟩ ⟨5, "door"⟩ none 0 0 4 6).1 = .diverge
      ∧ (openAsync ⟨2, 2⟩ ⟨fun _ => 0, fun _ => .ok ⟨"t", 3600⟩,
        fun _ _ => .ok ⟨true, [], 200, ⟨9, .Pending⟩⟩,
        fun _ _ _ => .ok ⟨true, [], 200, ⟨9, .Pending⟩⟩⟩
        ⟨some 1000000, some "tok"⟩ ⟨5, "door"⟩ none 0 0 4 6).1 = .diverge
      ∧ (pullSpringAsync ⟨2, 2⟩ ⟨fun _ => 0, fun _ => .ok ⟨"t", 3600⟩,
        fun _ _ => .ok ⟨true, [], 200, ⟨9, .Pending⟩⟩,
        fun _ _ _ => .ok ⟨true, [], 200, ⟨9, .Pending⟩⟩⟩
        ⟨some 1000000, some "tok"⟩ ⟨5, "door"⟩ none 0 0 4 6).1 = .diverge) := by
  constructor
  · exact c6_unbounded_polling.1 ⟨2, 2⟩
      ⟨fun _ => 0, fun _ => .ok ⟨"t", 3600⟩, fun _ _ => .error 2, fun _ _ _ => .error 2⟩
      ⟨some 1000000, some "tok"⟩ ⟨5, "door"⟩ none 0 0 3 5
      (fun j2 r h => nomatch h) (fun j2 i oid r2 h => nomatch h)
  · exact c6_unbounded_polling.2 ⟨2, 2⟩
      ⟨fun _ => 0, fun _ => .ok ⟨"t", 3600⟩,
       fun _ _ => .ok ⟨true, [], 200, ⟨9, .Pending⟩⟩,
       fun _ _ _ => .ok ⟨true, [], 200, ⟨9, .Pending⟩⟩⟩
      ⟨some 1000000, some "tok"⟩ ⟨5, "door"⟩ none 0 0 4 6 "tok" 1000000
      ⟨true, [], 200, ⟨9, .Pending⟩⟩ (fun _ _ => ⟨true, [], 200, ⟨9, .Pending⟩⟩)
      rfl (by decide) rfl (fun _ => (by decide : ¬ (1000000 : Int) < 0 - 120 * 1000))
      rfl (by decide) (fun _ _ => rfl) (fun _ _ => (by decide :
        (⟨true, [], 200, ⟨9, .Pending⟩⟩ : ApiResponse OperationResult).result.status ≠ .Completed))

/-- The name filter leaves the client state of the underlying `getLocksAsync` call
untouched. -/
theorem getLockByNameAsync_state (cfg : Configuration) (env : ResourceEnv (List Lock))
    (s : ClientState) (name : String) (rc : Option Int) (tk j fuel : Nat) :
    (getLockByNameAsync cfg env s name rc tk j fuel).2.1 =
      (getLocksAsync cfg env s rc tk j fuel).2.1 := by
  unfold getLockByNameAsync
  rcases h : getLocksAsync cfg env s rc tk j fuel with ⟨res, s1, n⟩
  cases res <;> simp

/-- The head-or-none wrapper leaves the client state of the underlying
`getDeviceActivityAsync` call untouched. -/
theorem getLatestDeviceActivityAsync_state (cfg : Configuration) (env : ActivityEnv)
    (s : ClientState) (lock : Lock) (rc : Option Int) (tk j fuel : Nat) :
    (getLatestDeviceActivityAsync cfg env s lock rc tk j fuel).2.1 =
      (getDeviceActivityAsync cfg env s lock 1 rc tk j fuel).2.1 := by
  unfold getLatestDeviceActivityAsync
  rcases h : getDeviceActivityAsync cfg env s lock 1 rc tk j fuel with ⟨res, s1, tr⟩
  cases res <;> simp

/-- C7: whenever `getLocksAsync` returns a list, `getLockByNameAsync` returns
exactly the first lock of that list whose `name` equals the given name (`none`
when no lock has the name), with the same state and attempt count — it is a pure
in-memory first-match filter over the `getLocksAsync` result. -/
theorem c7_lock_by_name_first_match :
    ∀ (cfg : Configuration) (env : ResourceEnv (List Lock)) (s : ClientState)
      (name : String) (rc : Option Int) (tk j fuel : Nat)
      (locks : List Lock) (s2 : ClientState) (n : Nat),
      getLocksAsync cfg env s rc tk j fuel = (.ok locks, s2, n) →
      (getLockByNameAsync cfg env s name rc tk j fuel =
          (.ok (firstLockNamed name locks), s2, n)
        ∧ (firstLockNamed name locks = none ↔ ∀ l ∈ locks, l.name ≠ name)
        ∧ (∀ l, firstLockNamed name locks = some l → l.name = name ∧ l ∈ locks)) := by
  intro cfg env s name rc tk j fuel locks s2 n h
  exact ⟨getLockByNameAsync_ok cfg env s name rc tk j fuel locks s2 n h,
    firstLockNamed_none_iff name locks,
    fun l hl => firstLockNamed_some name locks l hl⟩

/-- Witness for C7 at concrete inputs: from the list `[⟨1, "a"⟩, ⟨2, "b"⟩, ⟨3, "b"⟩]`,
looking up "b" returns the first match `⟨2, "b"⟩` and looking up "z" returns
`none`. -/
theorem c7_lock_by_name_first_match_witness :
    getLockByNameAsync ⟨2, 2⟩
      ⟨fun _ => 0, fun _ => .ok ⟨"t", 3600⟩,
       fun _ => .ok ⟨true, [], 200, [⟨1, "a"⟩, ⟨2, "b"⟩, ⟨3, "b"⟩]⟩⟩
      ⟨some 1000000, some "tok"⟩ "b" none 0 0 5 =
      (.ok (some ⟨2, "b"⟩), ⟨some 1000000, some "tok"⟩, 1)
    ∧ getLockByNameAsync ⟨2, 2⟩
      ⟨fun _ => 0, fun _ => .ok ⟨"t", 3600⟩,
       fun _ => .ok ⟨true, [], 200, [⟨1, "a"⟩, ⟨2, "b"⟩, ⟨3, "b"⟩]⟩⟩
      ⟨some 1000000, some "tok"⟩ "z" none 0 0 5 =
      (.ok none, ⟨some 1000000, some "tok"⟩, 1) := by
  have hlocks : getLocksAsync ⟨2, 2⟩
      ⟨fun _ => 0, fun _ => .ok ⟨"t", 3600⟩,
       fun _ => .ok ⟨true, [], 200, [⟨1, "a"⟩, ⟨2, "b"⟩, ⟨3, "b"⟩]⟩⟩
      ⟨some 1000000, some "tok"⟩ none 0 0 5 =
      (.ok [⟨1, "a"⟩, ⟨2, "b"⟩, ⟨3, "b"⟩], ⟨some 1000000, some "tok"⟩, 1) := by decide
  constructor
  · have h := (c7_lock_by_name_first_match ⟨2, 2⟩ _ _ "b" none 0 0 5 _ _ _ hlocks).1
    rw [h]
    decide
  · have h := (c7_lock_by_name_first_match ⟨2, 2⟩ _ _ "z" none 0 0 5 _ _ _ hlocks).1
    rw [h]
    decide

/-- C8: for every operation of the client, the final values of the two cached
fields (`accessToken`, `expirationDateTime`) are reachable from the initial ones
through `getAccessTokenAsync` transitions alone (`TokenReach`): no other code path
mutates them. -/
theorem c8_token_fields_mutated_only_by_token_logic :
    (∀ (cfg : Configuration) (te : TokenEnv) (s : ClientState) (rc : Option Int) (k fuel : Nat),
      TokenReach cfg te s (getAccessTokenAsync cfg te s rc k fuel).2.1)
    ∧ (∀ (cfg : Configuration) (env : ResourceEnv (List Lock)) (s : ClientState)
        (rc : Option Int) (tk j fuel : Nat),
      TokenReach cfg ⟨env.now, env.token⟩ s (getLocksAsync cfg env s rc tk j fuel).2.1)
    ∧ (∀ (cfg : Configuration) (env : ResourceEnv (List Lock)) (s : ClientState)
        (name : String) (rc : Option Int) (tk j fuel : Nat),
      TokenReach cfg ⟨env.now, env.token⟩ s
        (getLockByNameAsync cfg env s name rc tk j fuel).2.1)
    ∧ (∀ (cfg : Configuration) (env : ResourceEnv (List LockSync)) (s : ClientState)
        (rc : Option Int) (tk j fuel : Nat),
      TokenReach cfg ⟨env.now, env.token⟩ s (syncLocksAsync cfg env s rc tk j fuel).2.1)
    ∧ (∀ (cfg : Configuration) (env : ResourceEnv LockSync) (s : ClientState)
        (lockId : Int) (rc : Option Int) (tk j fuel : Nat),
      TokenReach cfg ⟨env.now, env.token⟩ s
        (syncLockAsync cfg env s lockId rc tk j fuel).2.1)
    ∧ (∀ (cfg : Configuration) (env : ActivityEnv) (s : ClientState) (lock : Lock)
        (count : Int) (rc : Option Int) (tk j fuel : Nat),
      TokenReach cfg ⟨env.now, env.token⟩ s
        (getDeviceActivityAsync cfg env s lock count rc tk j fuel).2.1)
    ∧ (∀ (cfg : Configuration) (env : ActivityEnv) (s : ClientState) (lock : Lock)
        (rc : Option Int) (tk j fuel : Nat),
      TokenReach cfg ⟨env.now, env.token⟩ s
        (getLatestDeviceActivityAsync cfg env s lock rc tk j fuel).2.1)
    ∧ (∀ (cfg : Configuration) (env : OpEnv) (s : ClientState) (lock : Lock)
        (rc : Option Int) (tk j pf fuel : Nat),
      TokenReach cfg ⟨env.now, env.token⟩ s (closeAsync cfg env s lock rc tk j pf fuel).2.1)
    ∧ (∀ (cfg : Configuration) (env : OpEnv) (s : ClientState) (lock : Lock)
        (rc : Option Int) (tk j pf fuel : Nat),
      TokenReach cfg ⟨env.now, env.token⟩ s (openAsync cfg env s lock rc tk j pf fuel).2.1)
    ∧ (∀ (cfg : Configuration) (env : OpEnv) (s : ClientState) (lock : Lock)
        (rc : Option Int) (tk j pf fuel : Nat),
      TokenReach cfg ⟨env.now, env.token⟩ s
        (pullSpringAsync cfg env s lock rc tk j pf fuel).2.1) := by
  refine ⟨?_, ?_, ?_, ?_, ?_, ?_, ?_, ?_, ?_, ?_⟩
  · intro cfg te s rc k fuel
    have h0 : TokenReach cfg te s s := TokenReach.refl
    exact TokenReach.step s rc k fuel h0
  · intro cfg env s rc tk j fuel
    exact getResourceAsync_reach cfg env fuel s rc tk j
  · intro cfg env s name rc tk j fuel
    rw [getLockByNameAsync_state]
    exact getResourceAsync_reach cfg env fuel s rc tk j
  · intro cfg env s rc tk j fuel
    exact getResourceAsync_reach cfg env fuel s rc tk j
  · intro cfg env s lockId rc tk j fuel
    exact getResourceAsync_reach cfg env fuel s rc tk j
  · intro cfg env s lock count rc tk j fuel
    exact getDeviceActivityAsync_reach cfg env lock fuel s count rc tk j
  · intro cfg env s lock rc tk j fuel
    rw [getLatestDeviceActivityAsync_state]
    exact getDeviceActivityAsync_reach cfg env lock fuel s 1 rc tk j
  · intro cfg env s lock rc tk j pf fuel
    exact operationAsync_reach cfg env lock fuel s rc tk j pf
  · intro cfg env s lock rc tk j pf fuel
    exact operationAsync_reach cfg env lock fuel s rc tk j pf
  · intro cfg env s lock rc tk j pf fuel
    exact operationAsync_reach cfg env lock fuel s rc tk j pf

/-- Counterexample to C9 as stated: the cache check is string truthiness, not
null-ness. If the token endpoint once returns an empty `access_token`, the client
stores it together with an expiry (first conjunct; the invariant itself still
holds). A later call misses the cache (empty string is falsy), refreshes, and
when that refresh fails the call throws while BOTH fields are still non-null —
the final state keeps `accessToken = some ""`, contradicting "whenever
getAccessTokenAsync throws ... both fields are null". -/
theorem c9_counterexample_empty_token :
    getAccessTokenAsync ⟨2, 2⟩ ⟨fun _ => 0, fun _ => .ok ⟨"", 3600⟩⟩ ⟨none, none⟩ none 0 5 =
      (.ok "", ⟨some 3600000, some ""⟩, 1)
    ∧ (getAccessTokenAsync ⟨2, 2⟩ ⟨fun _ => 3600000, fun _ => .error 7⟩
        ⟨some 3600000, some ""⟩ none 0 5).1 = .err 7
    ∧ (getAccessTokenAsync ⟨2, 2⟩ ⟨fun _ => 3600000, fun _ => .error 7⟩
        ⟨some 3600000, some ""⟩ none 0 5).2.1 ≠ (⟨none, none⟩ : ClientState) :=
  ⟨by decide, by decide, by decide⟩

/-- C9 as amended: the invariant "`accessToken` is null iff `expirationDateTime`
is null" holds initially and is preserved by every operation; and whenever
`getAccessTokenAsync` throws from an invariant state whose stored token is not the
empty string (the cache check is string truthiness, so an empty stored token also
triggers a refresh but is retained on failure), the final state has both fields
null — no non-empty stale token survives a failed refresh. -/
theorem c9_invariant_and_null_after_throw :
    Inv ⟨none, none⟩
    ∧ (∀ (cfg : Configuration) (te : TokenEnv) (s : ClientState) (rc : Option Int)
        (k fuel : Nat), Inv s → Inv (getAccessTokenAsync cfg te s rc k fuel).2.1)
    ∧ (∀ (cfg : Configuration) (env : ResourceEnv (List Lock)) (s : ClientState)
        (rc : Option Int) (tk j fuel : Nat), Inv s →
        Inv (getLocksAsync cfg env s rc tk j fuel).2.1)
    ∧ (∀ (cfg : Configuration) (env : ResourceEnv (List Lock)) (s : ClientState)
        (name : String) (rc : Option Int) (tk j fuel : Nat), Inv s →
        Inv (getLockByNameAsync cfg env s name rc tk j fuel).2.1)
    ∧ (∀ (cfg : Configuration) (env : ResourceEnv (List LockSync)) (s : ClientState)
        (rc : Option Int) (tk j fuel : Nat), Inv s →
        Inv (syncLocksAsync cfg env s rc tk j fuel).2.1)
    ∧ (∀ (cfg : Configuration) (env : ResourceEnv LockSync) (s : ClientState)
        (lockId : Int) (rc : Option Int) (tk j fuel : Nat), Inv s →
        Inv (syncLockAsync cfg env s lockId rc tk j fuel).2.1)
    ∧ (∀ (cfg : Configuration) (env : ActivityEnv) (s : ClientState) (lock : Lock)
        (count : Int) (rc : Option Int) (tk j fuel : Nat), Inv s →
        Inv (getDeviceActivityAsync cfg env s lock count rc tk j fuel).2.1)
    ∧ (∀ (cfg : Configuration) (env : ActivityEnv) (s : ClientState) (lock : Lock)
        (rc : Option Int) (tk j fuel : Nat), Inv s →
        Inv (getLatestDeviceActivityAsync cfg env s lock rc tk j fuel).2.1)
    ∧ (∀ (cfg : Configuration) (env : OpEnv) (s : ClientState) (lock : Lock)
        (rc : Option Int) (tk j pf fuel : Nat), Inv s →
        Inv (closeAsync cfg env s lock rc tk j pf fuel).2.1)
    ∧ (∀ (cfg : Configuration) (env : OpEnv) (s : ClientState) (lock : Lock)
        (rc : Option Int) (tk j pf fuel : Nat), Inv s →
        Inv (openAsync cfg env s lock rc tk j pf fuel).2.1)
    ∧ (∀ (cfg : Configuration) (env : OpEnv) (s : ClientState) (lock : Lock)
        (rc : Option Int) (tk j pf fuel : Nat), Inv s →
        Inv (pullSpringAsync cfg env s lock rc tk j pf fuel).2.1)
    ∧ (∀ (cfg : Configuration) (te : TokenEnv) (s : ClientState) (rc : Option Int)
        (k fuel : Nat) (e : Err), Inv s → s.accessToken ≠ some "" →
        (getAccessTokenAsync cfg te s rc k fuel).1 = .err e →
        (getAccessTokenAsync cfg te s rc k fuel).2.1 = ⟨none, none⟩) := by
  refine ⟨by simp [Inv], ?_, ?_, ?_, ?_, ?_, ?_, ?_, ?_, ?_, ?_, ?_⟩
  · intro cfg te s rc k fuel h
    exact getAccessTokenAsync_inv cfg te fuel s rc k h
  · intro cfg env s rc tk j fuel h
    exact tokenReach_inv (getResourceAsync_reach cfg env fuel s rc tk j) h
  · intro cfg env s name rc tk j fuel h
    rw [getLockByNameAsync_state]
    exact tokenReach_inv (getResourceAsync_reach cfg env fuel s rc tk j) h
  · intro cfg env s rc tk j fuel h
    exact tokenReach_inv (getResourceAsync_reach cfg env fuel s rc tk j) h
  · intro cfg env s lockId rc tk j fuel h
    exact tokenReach_inv (getResourceAsync_reach cfg env fuel s rc tk j) h
  · intro cfg env s lock count rc tk j fuel h
    exact tokenReach_inv (getDeviceActivityAsync_reach cfg env lock fuel s count rc tk j) h
  · intro cfg env s lock rc tk j fuel h
    rw [getLatestDeviceActivityAsync_state]
    exact tokenReach_inv (getDeviceActivityAsync_reach cfg env lock fuel s 1 rc tk j) h
  · intro cfg env s lock rc tk j pf fuel h
    exact tokenReach_inv (operationAsync_reach cfg env lock fuel s rc tk j pf) h
  · intro cfg env s lock rc tk j pf fuel h
    exact tokenReach_inv (operationAsync_reach cfg env lock fuel s rc tk j pf) h
  · intro cfg env s lock rc tk j pf fuel h
    exact tokenReach_inv (operationAsync_reach cfg env lock fuel s rc tk j pf) h
  · intro cfg te s rc k fuel e hinv hne herr
    exact getAccessTokenAsync_err_null cfg te fuel s rc k e hinv hne herr

/-- Witness for C9 (amended) at concrete inputs: a lock call from a token-holding
invariant state preserves the invariant, and a failed refresh from an expired,
non-empty-token invariant state throws and leaves both fields null. -/
theorem c9_invariant_and_null_after_throw_witness :
    Inv ⟨some 1000000, some "tok"⟩
    ∧ Inv (getLocksAsync ⟨2, 2⟩ ⟨fun _ => 0, fun _ => .error 7, fun _ => .error 9⟩
        ⟨some 1000000, some "tok"⟩ none 0 0 5).2.1
    ∧ (getAccessTokenAsync ⟨2, 2⟩ ⟨fun _ => 2000000, fun _ => .error 7⟩
        ⟨some 1000000, some "tok"⟩ none 0 5).1 = .err 7
    ∧ (getAccessTokenAsync ⟨2, 2⟩ ⟨fun _ => 2000000, fun _ => .error 7⟩
        ⟨some 1000000, some "tok"⟩ none 0 5).2.1 = ⟨none, none⟩ := by
  have hinv : Inv (⟨some 1000000, some "tok"⟩ : ClientState) := by simp [Inv]
  have herr : (getAccessTokenAsync ⟨2, 2⟩ ⟨fun _ => 2000000, fun _ => .error 7⟩
      ⟨some 1000000, some "tok"⟩ none 0 5).1 = .err 7 := by decide
  refine ⟨hinv, ?_, herr, ?_⟩
  · exact c9_invariant_and_null_after_throw.2.2.1 ⟨2, 2⟩
      ⟨fun _ => 0, fun _ => .error 7, fun _ => .error 9⟩
      ⟨some 1000000, some "tok"⟩ none 0 0 5 hinv
  · exact c9_invariant_and_null_after_throw.2.2.2.2.2.2.2.2.2.2.2 ⟨2, 2⟩
      ⟨fun _ => 2000000, fun _ => .error 7⟩ ⟨some 1000000, some "tok"⟩ none 0 5 7
      hinv (by decide) herr

/-- C10: passing `retryCount = 0` (falsy in the source's `if (!retryCount)` check)
behaves identically to omitting the parameter for every operation — the
configured default is substituted — and at least one attempt is always made: a
token cache miss issues at least one token request whatever `retryCount` is, and
once the token is obtained a lock call issues at least one API attempt. -/
theorem c10_zero_retry_count_defaults :
    (∀ (cfg : Configuration) (env : TokenEnv) (s : ClientState) (k fuel : Nat),
      getAccessTokenAsync cfg env s (some 0) k fuel =
        getAccessTokenAsync cfg env s none k fuel)
    ∧ (∀ (cfg : Configuration) (env : ResourceEnv (List Lock)) (s : ClientState)
        (tk j fuel : Nat),
      getLocksAsync cfg env s (some 0) tk j fuel = getLocksAsync cfg env s none tk j fuel)
    ∧ (∀ (cfg : Configuration) (env : ResourceEnv (List Lock)) (s : ClientState)
        (name : String) (tk j fuel : Nat),
      getLockByNameAsync cfg env s name (some 0) tk j fuel =
        getLockByNameAsync cfg env s name none tk j fuel)
    ∧ (∀ (cfg : Configuration) (env : ResourceEnv (List LockSync)) (s : ClientState)
        (tk j fuel : Nat),
      syncLocksAsync cfg env s (some 0) tk j fuel = syncLocksAsync cfg env s none tk j fuel)
    ∧ (∀ (cfg : Configuration) (env : ResourceEnv LockSync) (s : ClientState)
        (lockId : Int) (tk j fuel : Nat),
      syncLockAsync cfg env s lockId (some 0) tk j fuel =
        syncLockAsync cfg env s lockId none tk j fuel)
    ∧ (∀ (cfg : Configuration) (env : ActivityEnv) (s : ClientState) (lock : Lock)
        (count : Int) (tk j fuel : Nat),
      getDeviceActivityAsync cfg env s lock count (some 0) tk j fuel =
        getDeviceActivityAsync cfg env s lock count none tk j fuel)
    ∧ (∀ (cfg : Configuration) (env : ActivityEnv) (s : ClientState) (lock : Lock)
        (tk j fuel : Nat),
      getLatestDeviceActivityAsync cfg env s lock (some 0) tk j fuel =
        getLatestDeviceActivityAsync cfg env s lock none tk j fuel)
    ∧ (∀ (cfg : Configuration) (env : OpEnv) (s : ClientState) (lock : Lock)
        (tk j pf fuel : Nat),
      closeAsync cfg env s lock (some 0) tk j pf fuel =
        closeAsync cfg env s lock none tk j pf fuel)
    ∧ (∀ (cfg : Configuration) (env : OpEnv) (s : ClientState) (lock : Lock)
        (tk j pf fuel : Nat),
      openAsync cfg env s lock (some 0) tk j pf fuel =
        openAsync cfg env s lock none tk j pf fuel)
    ∧ (∀ (cfg : Configuration) (env : OpEnv) (s : ClientState) (lock : Lock)
        (tk j pf fuel : Nat),
      pullSpringAsync cfg env s lock (some 0) tk j pf fuel =
        pullSpringAsync cfg env s lock none tk j pf fuel)
    ∧ (∀ (cfg : Configuration) (env : TokenEnv) (s : ClientState) (rc : Option Int)
        (k fuel : Nat),
      (invalidateIfExpired (env.now k) s).accessToken.getD "" = "" →
      1 ≤ (getAccessTokenAsync cfg env s rc k fuel).2.2)
    ∧ (∀ (cfg : Configuration) (env : ResourceEnv (List Lock)) (s : ClientState)
        (rc : Option Int) (tk j fuel : Nat) (tok : String),
      (getAccessTokenAsync cfg ⟨env.now, env.token⟩ s none tk fuel).1 = .ok tok →
      1 ≤ (getLocksAsync cfg env s rc tk j fuel).2.2) := by
  refine ⟨?_, ?_, ?_, ?_, ?_, ?_, ?_, ?_, ?_, ?_, ?_, ?_⟩
  · intro cfg env s k fuel
    exact getAccessTokenAsync_rc0 cfg env s k fuel
  · intro cfg env s tk j fuel
    exact getResourceAsync_rc0 cfg env s tk j fuel
  · intro cfg env s name tk j fuel
    unfold getLockByNameAsync getLocksAsync
    rw [getResourceAsync_rc0]
  · intro cfg env s tk j fuel
    exact getResourceAsync_rc0 cfg env s tk j fuel
  · intro cfg env s lockId tk j fuel
    exact getResourceAsync_rc0 cfg env s tk j fuel
  · intro cfg env s lock count tk j fuel
    exact getDeviceActivityAsync_rc0 cfg env s lock count tk j fuel
  · intro cfg env s lock tk j fuel
    unfold getLatestDeviceActivityAsync
    rw [getDeviceActivityAsync_rc0]
  · intro cfg env s lock tk j pf fuel
    exact operationAsync_rc0 cfg env s lock tk j pf fuel
  · intro cfg env s lock tk j pf fuel
    exact operationAsync_rc0 cfg env s lock tk j pf fuel
  · intro cfg env s lock tk j pf fuel
    exact operationAsync_rc0 cfg env s lock tk j pf fuel
  · intro cfg env s rc k fuel h
    exact getAccessTokenAsync_cacheMiss_one_attempt cfg env s rc k fuel h
  · intro cfg env s rc tk j fuel tok h
    exact getResourceAsync_one_attempt cfg env s rc tk j fuel tok h

/-- Witness for C10 at concrete inputs: `retryCount = 0` and an omitted
`retryCount` produce identical runs, and a cache-missing token call and a
token-holding lock call each make at least one attempt. -/
theorem c10_zero_retry_count_defaults_witness :
    getAccessTokenAsync ⟨2, 2⟩ ⟨fun _ => 0, fun _ => .error 7⟩ ⟨none, none⟩ (some 0) 0 5 =
      getAccessTokenAsync ⟨2, 2⟩ ⟨fun _ => 0, fun _ => .error 7⟩ ⟨none, none⟩ none 0 5
    ∧ getLocksAsync ⟨2, 2⟩ ⟨fun _ => 0, fun _ => .ok ⟨"t", 3600⟩, fun _ => .error 9⟩
        ⟨some 1000000, some "tok"⟩ (some 0) 0 0 5 =
      getLocksAsync ⟨2, 2⟩ ⟨fun _ => 0, fun _ => .ok ⟨"t", 3600⟩, fun _ => .error 9⟩
        ⟨some 1000000, some "tok"⟩ none 0 0 5
    ∧ 1 ≤ (getAccessTokenAsync ⟨2, 2⟩ ⟨fun _ => 0, fun _ => .error 7⟩
        ⟨none, none⟩ (some 0) 0 5).2.2
    ∧ 1 ≤ (getLocksAsync ⟨2, 2⟩ ⟨fun _ => 0, fun _ => .ok ⟨"t", 3600⟩, fun _ => .error 9⟩
        ⟨some 1000000, some "tok"⟩ (some 0) 0 0 5).2.2 := by
  refine ⟨?_, ?_, ?_, ?_⟩
  · exact c10_zero_retry_count_defaults.1 ⟨2, 2⟩ ⟨fun _ => 0, fun _ => .error 7⟩
      ⟨none, none⟩ 0 5
  · exact c10_zero_retry_count_defaults.2.1 ⟨2, 2⟩
      ⟨fun _ => 0, fun _ => .ok ⟨"t", 3600⟩, fun _ => .error 9⟩
      ⟨some 1000000, some "tok"⟩ 0 0 5
  · exact c10_zero_retry_count_defaults.2.2.2.2.2.2.2.2.2.2.1 ⟨2, 2⟩
      ⟨fun _ => 0, fun _ => .error 7⟩ ⟨none, none⟩ (some 0) 0 5 (by decide)
  · exact c10_zero_retry_count_defaults.2.2.2.2.2.2.2.2.2.2.2 ⟨2, 2⟩
      ⟨fun _ => 0, fun _ => .ok ⟨"t", 3600⟩, fun _ => .error 9⟩
      ⟨some 1000000, some "tok"⟩ (some 0) 0 0 5 "tok" (by decide)

end Tedee
